import Mathlib

/-!
NexShell kernel shell (`kernel/kshell.c`).

A shallow embedding of the kernel shell of NexShell: the mount resolver, the
automount prober, the line reader, the tokenizing loop of the shell, the
command dispatcher and the shutdown sequencer, followed by theorems about
them.

Conventions of the embedding.

* C pointers are `Option` values, `none` being the null pointer.
* Everything the shell does to the outside (console output, calls into the
  device, filesystem, process and allocator layers, port writes) is appended
  to `World.trace`, oldest event first.
* The routines called by the shell but defined in other files of the kernel
  are fields of `Env`; a theorem that quantifies over `Env` holds for every
  behaviour of those routines.
-/

namespace NexShell

/-! ## Data model -/

/-- Handle of an open block device (`struct device *`). -/
abbrev Device := Nat
/-- Filesystem driver (`struct fs *`). -/
abbrev Fs := Nat
/-- Open volume (`struct fs_volume *`). -/
abbrev Volume := Nat
/-- Directory entry (`struct fs_dirent *`). -/
abbrev Dirent := Nat
/-- Kernel object (`struct kobject *`). -/
abbrev KObject := Nat

/-- Modelled from the spec: the index of the root directory in the kernel
object table (`KNO_STDDIR`) is declared in `kernel/types.h`, which is not part
of the sources at hand; no theorem depends on its value. -/
def KNO_STDDIR : Int := 4

/-- Observable actions of the shell, in the order the code performs them. -/
inductive Event where
  | printf (s : String)
  | putchar (c : Char)
  | device_open (devname : String) (unit : Int)
  | device_close (dev : Device)
  | fs_lookup (fs_type : String)
  | fs_volume_open (fs : Fs) (dev : Device)
  | fs_volume_root (v : Volume)
  | fs_volume_close (v : Volume)
  | kobject_create_dir (d : Dirent)
  | fs_resolve (path : String)
  | fs_dirent_list (d : Dirent) (capacity : Nat)
  | fs_dirent_mkdir (d : Dirent) (name : String)
  | fs_dirent_close (d : Dirent)
  | kmalloc (size : Int)
  | kfree
  | sys_open_file (fd : Int) (path : String)
  | sys_object_read (fd : Int) (capacity : Nat)
  | sys_object_close (fd : Int)
  | sys_process_run (fd : Int) (argv : List String)
  | process_yield
  | process_wait_child (pid : Int)
  | process_reap (pid : Int)
  | process_kill (pid : Int)
  | busy_wait (iterations : Nat)
  | outw (port : Nat) (value : Nat)
  | reboot
  | store (capacity : Nat) (index : Int)
  | halt
  deriving DecidableEq, Repr

/-- What the machine is doing once a routine is over. -/
inductive Machine where
  | running
  | poweredOff
  | halted
  | rebooted
  deriving DecidableEq, Repr

/-- State the shell reads and writes: the mount slot
`current->ktable[KNO_STDDIR]`, the trace of observable actions, the
keystrokes not yet consumed and the state of the machine. -/
structure World where
  stddir : Option KObject
  trace : List Event
  input : List Char
  machine : Machine
  deriving DecidableEq, Repr

/-- Record one observable action. -/
def World.emit (w : World) (e : Event) : World :=
  { w with trace := w.trace ++ [e] }

/-- Routines of the kernel that the shell calls and that live outside
`kshell.c`. A pointer result is `none` for a null pointer. -/
structure Env where
  device_open : String → Int → Option Device
  device_name : Device → String
  device_unit : Device → Int
  fs_lookup : String → Option Fs
  fs_volume_open : Fs → Device → Option Volume
  fs_volume_root : Volume → Option Dirent
  kobject_create_dir : Dirent → Option KObject
  fs_resolve : String → Option Dirent
  fs_dirent_list : Dirent → Nat → Int × List Char
  fs_dirent_mkdir : Dirent → String → Option Dirent
  kmalloc : Int → Bool
  sys_open_file : Int → String → Int
  sys_object_read : Int → Nat → Int × List Char
  sys_process_run : Int → List String → Int
  process_wait_child : Int → Int × Int
  str2int : String → Option Int
  power_off_works : Bool
  video_xres : Int
  video_yres : Int

/-! ## Mount resolver -/

/-- Outcome of a block of C statements: the block executed a `return`, or
control fell through its end. -/
inductive Flow where
  | returned (value : Int) (w : World)
  | fell (w : World)

/-- Sequencing of C statements: what follows a block runs only when control
fell through the end of the block. -/
def Flow.andThen (f : Flow) (next : World → Flow) : Flow :=
  match f with
  | .returned value w => .returned value w
  | .fell w => next w

/-- The function `kshell_mount` (kshell.c lines 39-76), statement by
statement. The calls `fs_volume_close(v)` (line 60) and `device_close(dev)`
(line 69) follow an `if`/`else` and run only if control falls through it; the
last line is the `return -1` that ends the function. -/
def kshell_mount (env : Env) (devname : String) (unit : Int) (fs_type : String)
    (w : World) : Int × World :=
  if w.stddir.isSome then
    (-1, w.emit (.printf "root filesystem already mounted, please unmount first\n"))
  else
    let w := w.emit (.device_open devname unit)
    let body : Flow :=
      match env.device_open devname unit with
      | some dev =>
        Flow.andThen
          (let w := w.emit (.fs_lookup fs_type)
           match env.fs_lookup fs_type with
           | some fs =>
             let w := w.emit (.fs_volume_open fs dev)
             match env.fs_volume_open fs dev with
             | some v =>
               Flow.andThen
                 (let w := w.emit (.fs_volume_root v)
                  match env.fs_volume_root v with
                  | some d =>
                    let w := w.emit (.kobject_create_dir d)
                    .returned 0 { w with stddir := env.kobject_create_dir d }
                  | none =>
                    .returned (-1) (w.emit (.printf ("mount: couldn't find root dir on "
                      ++ env.device_name dev ++ " unit " ++ toString (env.device_unit dev)
                      ++ "!\n"))))
                 (fun w => .fell (w.emit (.fs_volume_close v)))
             | none =>
               .returned (-1) (w.emit (.printf ("mount: couldn't mount " ++ fs_type ++ " on "
                 ++ env.device_name dev ++ " unit " ++ toString (env.device_unit dev)
                 ++ "\n")))
           | none =>
             .returned (-1) (w.emit (.printf ("mount: invalid fs type: " ++ fs_type ++ "\n"))))
          (fun w => .fell (w.emit (.device_close dev)))
      | none =>
        .returned (-1) (w.emit (.printf ("mount: couldn't open device " ++ devname ++ " unit "
          ++ toString unit ++ "\n")))
    match body with
    | .returned value w => (value, w)
    | .fell w => (-1, w)

/-- A run of mount requests, each with its own behaviour of the kernel
routines; the results are collected in order. -/
def mount_each : List (Env × String × Int × String) → World → List Int × World
  | [], w => ([], w)
  | (env, devname, unit, fs_type) :: rest, w =>
    let r := kshell_mount env devname unit fs_type w
    let rs := mount_each rest r.2
    (r.1 :: rs.1, rs.2)

/-! ## Automount prober -/

/-- One `for(i=0;i<4;i++)` loop of `automount` over the unit numbers `units`:
announce the unit, try to mount it, leave the loop (and the function) at the
first result equal to 0. The boolean tells whether that happened. The mount
routine and the console are parameters, so that the loop can be studied for
every behaviour of `kshell_mount`. -/
def automount_probe {σ : Type} (mount : String → Int → String → σ → Int × σ)
    (printf : String → σ → σ) (devname fs_type : String) : List Int → σ → Bool × σ
  | [], s => (false, s)
  | i :: rest, s =>
    let s1 := printf ("automount: trying " ++ devname ++ " unit " ++ toString i ++ ".\n") s
    let r := mount devname i fs_type s1
    if r.1 = 0 then (true, r.2)
    else automount_probe mount printf devname fs_type rest r.2

/-- The function `automount` (kshell.c lines 496-512) over an arbitrary mount
routine. -/
def automount_with {σ : Type} (mount : String → Int → String → σ → Int × σ)
    (printf : String → σ → σ) (s : σ) : Int × σ :=
  let r1 := automount_probe mount printf "atapi" "cdromfs" [0, 1, 2, 3] s
  if r1.1 then (0, r1.2)
  else
    let r2 := automount_probe mount printf "ata" "simplefs" [0, 1, 2, 3] r1.2
    if r2.1 then (0, r2.2)
    else (-1, printf "automount: no bootable devices available.\n" r2.2)

/-- The function `automount` as the shell runs it, on `kshell_mount`. -/
def automount (env : Env) (w : World) : Int × World :=
  automount_with (kshell_mount env) (fun t w => w.emit (.printf t)) w

/-- A mount request: device name, unit, filesystem type. -/
abbrev Candidate := String × Int × String

/-- The candidates in the order the spec gives them: the optical units 0 to 3
with `cdromfs`, then the disk units 0 to 3 with `simplefs`. -/
def automount_candidates : List Candidate :=
  [("atapi", 0, "cdromfs"), ("atapi", 1, "cdromfs"), ("atapi", 2, "cdromfs"),
   ("atapi", 3, "cdromfs"), ("ata", 0, "simplefs"), ("ata", 1, "simplefs"),
   ("ata", 2, "simplefs"), ("ata", 3, "simplefs")]

/-- A mount routine that also keeps a log of the requests it received, each
with the value it returned; the routine itself is left as it is. -/
def recording {σ : Type} (mount : String → Int → String → σ → Int × σ) :
    String → Int → String → σ × List (Candidate × Int) → Int × (σ × List (Candidate × Int)) :=
  fun devname unit fs_type p =>
    let r := mount devname unit fs_type p.1
    (r.1, (r.2, p.2 ++ [((devname, unit, fs_type), r.1)]))

/-- A console for the state with a log: it prints and leaves the log alone. -/
def recording_printf {σ : Type} (printf : String → σ → σ) :
    String → σ × List (Candidate × Int) → σ × List (Candidate × Int) :=
  fun t p => (printf t p.1, p.2)

/-! ## Line reader -/

/-- Modelled from the spec: the carriage return code `ASCII_CR` is declared in
`kernel/ascii.h`, which is not part of the sources at hand. -/
def ASCII_CR : Char := Char.ofNat 13

/-- Modelled from the spec: the backspace code `ASCII_BS` is declared in
`kernel/ascii.h`, which is not part of the sources at hand. -/
def ASCII_BS : Char := Char.ofNat 8

/-- The byte that ends a C string. -/
def NUL : Char := Char.ofNat 0

/-- The test `c >= 0x20 && c <= 0x7E` of `kshell_readline`. -/
def printable (c : Char) : Bool := 0x20 ≤ c.toNat && c.toNat ≤ 0x7E

/-- The loop of `kshell_readline` (kshell.c lines 444-460) with the return
that follows it. `console_getchar` takes the next keystroke of `input`; when
the loop wants a keystroke and there is none left the function never returns,
which is the result `none`. The result holds the returned value, the buffer,
the keystrokes left and the trace. -/
def kshell_readline_loop (length : Int) :
    List Char → List Char → Nat → List Event → Option (Int × List Char × List Char × List Event)
  | [], line, i, out =>
    if (i : Int) < length - 1 then none else some (0, line, [], out)
  | c :: rest, line, i, out =>
    if (i : Int) < length - 1 then
      if c = ASCII_CR then
        some (1, line.set i NUL, rest, out ++ [.printf "\n"])
      else if c = ASCII_BS then
        if i > 0 then
          kshell_readline_loop length rest line (i - 1) (out ++ [.putchar c])
        else
          kshell_readline_loop length rest line i out
      else if printable c then
        kshell_readline_loop length rest (line.set i c) (i + 1) (out ++ [.putchar c])
      else
        kshell_readline_loop length rest line i out
    else some (0, line, c :: rest, out)

/-- The function `kshell_readline` (kshell.c lines 441-463) on the buffer
`line`: the returned value, the buffer and the world afterwards, or `none`
when it waits for a keystroke that never comes. -/
def kshell_readline (line : List Char) (length : Int) (w : World) :
    Option (Int × List Char × World) :=
  match kshell_readline_loop length w.input line 0 w.trace with
  | none => none
  | some (r, line1, input1, out) => some (r, line1, { w with input := input1, trace := out })

/-- The C string that starts a buffer: the bytes before its first NUL. -/
def c_string (buf : List Char) : List Char := buf.takeWhile (fun c => c ≠ NUL)

/-- One editing step in the words of the spec: a backspace removes the last
accumulated character if there is one, a printable character is appended,
every other code is ignored. -/
def edit_step (acc : List Char) (c : Char) : List Char :=
  if c = ASCII_BS then acc.dropLast
  else if printable c then acc ++ [c]
  else acc

/-- The content accumulated from `acc` by the keystrokes `cs`, in the words of
the spec: a left fold of `edit_step`. -/
def accumulated_from (acc : List Char) (cs : List Char) : List Char :=
  cs.foldl edit_step acc

/-- The echo of the keystrokes `cs` in the words of the spec: a printable
character is echoed, a backspace is echoed when it erases something and is
silent at position zero, every other code is silent. -/
def echoed_from : List Char → List Char → List Event
  | _, [] => []
  | acc, c :: cs =>
    if c = ASCII_BS then
      if acc = [] then echoed_from acc cs
      else .putchar c :: echoed_from acc.dropLast cs
    else if printable c then .putchar c :: echoed_from (acc ++ [c]) cs
    else echoed_from acc cs

/-! ## Tokenizer -/

/-- Modelled from the spec: `strtok` is defined in the string library of the
kernel, which is not part of the sources at hand. The argument `s` is the text
still to be scanned (the string passed on the first call, the remembered rest
on the calls with a null argument). As in C, the leading delimiters are
skipped; if nothing is left the result is null; otherwise the token runs up to
the next delimiter, which is overwritten by NUL, and the text after it is
remembered. -/
def strtok (delim : List Char) (s : List Char) : Option (List Char) × List Char :=
  let s1 := s.dropWhile (fun c => c ∈ delim)
  if s1 = [] then (none, [])
  else (some (s1.takeWhile (fun c => c ∉ delim)), (s1.dropWhile (fun c => c ∉ delim)).tail)

/-- The loop `while(argv[argc]) { argc++; argv[argc] = strtok(0," "); }` of
`kshell_launch` (kshell.c lines 687-690). `cur` is `argv[argc]`, `rest` the
text `strtok` remembers, `writes` the stores into `argv` made so far, each with
its index. The result is the final `argc` and all stores in order. The loop
has no test on `argc`, so a store is recorded whether or not its index lies
inside the array (see `ARGV_CAPACITY`). -/
def tokenize_loop (rest : List Char) (argc : Nat) (cur : Option (List Char))
    (writes : List (Nat × Option (List Char))) : Nat × List (Nat × Option (List Char)) :=
  match cur with
  | none => (argc, writes)
  | some _ =>
    tokenize_loop (strtok [' '] rest).2 (argc + 1) (strtok [' '] rest).1
      (writes ++ [(argc + 1, (strtok [' '] rest).1)])
termination_by rest.length + (if cur.isSome then 1 else 0)
decreasing_by
  have h : ∀ delim s : List Char, (strtok delim s).2.length ≤ s.length ∧
      ((strtok delim s).1.isSome → (strtok delim s).2.length < s.length) := by
    intro delim s
    have h1 : (s.dropWhile (fun c => c ∈ delim)).length ≤ s.length :=
      (List.dropWhile_sublist _).length_le
    unfold strtok
    by_cases h : s.dropWhile (fun c => c ∈ delim) = []
    · simp [h]
    · simp only [h, if_false, Option.isSome_some, forall_true_left]
      obtain ⟨a, l, hal⟩ := List.exists_cons_of_ne_nil h
      have ha : ¬ (a ∈ delim) := by
        have := List.head_dropWhile_not (fun c => decide (c ∈ delim)) s h
        simpa [hal] using this
      have h3 : ((a :: l).dropWhile (fun c => c ∉ delim)) = l.dropWhile (fun c => c ∉ delim) := by
        simp [List.dropWhile_cons, ha]
      have h4 : (l.dropWhile (fun c => c ∉ delim)).length ≤ l.length :=
        (List.dropWhile_sublist _).length_le
      rw [hal] at h1 ⊢
      simp only [h3, List.length_tail, List.length_cons] at h1 ⊢
      omega
  have h := h [' '] rest
  cases hc : (strtok [' '] rest).1 with
  | none =>
    have := h.1
    simp
    omega
  | some t =>
    have := h.2 (by simp [hc])
    simp
    omega

/-- The statements `argc = 0; argv[argc] = strtok(line, " ");` followed by the
loop (kshell.c lines 685-690), on the C string `line`. -/
def kshell_tokenize (line : List Char) : Nat × List (Nat × Option (List Char)) :=
  tokenize_loop (strtok [' '] line).2 0 (strtok [' '] line).1 [(0, (strtok [' '] line).1)]

/-- The tokens stored in `argv`, in the order they were stored. -/
def stored_tokens (writes : List (Nat × Option (List Char))) : List (List Char) :=
  writes.filterMap Prod.snd

/-- Number of entries of the array `argv` of `kshell_launch`. -/
def ARGV_CAPACITY : Nat := 100

/-- Number of bytes of the array `line` of `kshell_launch`. -/
def LINE_CAPACITY : Nat := 1024

/-- The maximal runs of non-space characters of a line, from left to right:
the pieces between spaces, the empty ones left out. -/
def maximal_runs (line : List Char) : List (List Char) :=
  (line.splitOn ' ').filter (fun t => t ≠ [])

/-! ## Console and small routines -/

/-- A call of `printf` whose text is already formatted. -/
def World.printf (w : World) (t : String) : World := w.emit (.printf t)

/-- Several calls of `printf` in a row. -/
def World.prints (w : World) (ts : List String) : World := ts.foldl World.printf w

/-- Modelled from the spec: `sys_object_close` is defined in the system call
layer, which is not part of the sources at hand. It releases the object at
index `fd` of the kernel object table; for `KNO_STDDIR` this leaves the mount
slot empty. -/
def sys_object_close (fd : Int) (w : World) : World :=
  let w := w.emit (.sys_object_close fd)
  if fd = KNO_STDDIR then { w with stddir := none } else w

/-- The function `clear` (kshell.c lines 657-659). -/
def clear (w : World) : World := w.printf "\x0c\n"

/-- The function `cowsay` (kshell.c lines 465-488). -/
def cowsay (message : String) (w : World) : World :=
  let len := message.length
  let w := w.printf " "
  let w := w.prints (List.replicate (len + 2) "_")
  let w := w.printf "\n"
  let w := w.printf ("< " ++ message ++ " >\n")
  let w := w.printf " "
  let w := w.prints (List.replicate (len + 2) "-")
  let w := w.printf "\n"
  w.prints ["        \\   ^__^\n",
            "         \\  (oo)\\_______\n",
            "            (__)\\       )\\/\\\n",
            "                ||----w |\n",
            "                ||     ||\n"]

/-- The function `neofetch` (kshell.c lines 641-655). -/
def neofetch (env : Env) (w : World) : World :=
  w.prints ["\n",
            "|----------------------------------------------------------|\n",
            "|                     NexShell v1.2.3                      |\n",
            "|                  (C)Copyright 2025 XPDevs                |\n",
            "|                  Build id: NS127-0425-S1                 |\n",
            "|----------------------------------------------------------|\n",
            "| Architecture: " ++ "x86" ++ "\n",
            "| Shell: " ++ "Kshell" ++ "\n",
            "| video: " ++ toString env.video_xres ++ " x " ++ toString env.video_yres ++ "\n",
            "|----------------------------------------------------------|\n\n"]

/-- The function `GUI` (kshell.c lines 583-638). The store
`buffer[bytes_read] = 0` is recorded with the size of the buffer it goes to. -/
def GUI (env : Env) (w : World) : Int × World :=
  let w := w.printf "\nThe GUI is being loaded, please wait during this time, as it may take a while\n"
  let w := w.emit (.busy_wait 400000000)
  let w := w.emit (.sys_open_file KNO_STDDIR "/core/gui/main.nex")
  let fd := env.sys_open_file KNO_STDDIR "/core/gui/main.nex"
  if fd < 0 then
    (-1, w.printf "GUI: Failed to open core/gui/main.nex\n")
  else
    let w := w.emit (.kmalloc 4096)
    if env.kmalloc 4096 then
      let w := w.emit (.sys_object_read fd 4096)
      let bytes_read := (env.sys_object_read fd 4096).1
      let w :=
        if bytes_read > 0 then
          let w := w.emit (.store 4096 bytes_read)
          w.printf ("\x0c" ++ String.mk (c_string ((env.sys_object_read fd 4096).2.take
            bytes_read.toNat)) ++ "\n")
        else w.printf "GUI: File read failed or is empty\n"
      let w := w.emit .kfree
      let w := sys_object_close fd w
      let w := w.emit (.busy_wait 400000000)
      (0, w)
    else
      let w := w.printf "GUI: Memory allocation failed\n"
      (-1, sys_object_close fd w)

/-! ## Shutdown sequencer -/

/-- The loop `for (int pid = 2; pid <= 100; pid++) process_kill(pid);` of
`shutdown_user` (kshell.c lines 524-528), entered with the given `pid`. -/
def kill_loop (pid : Nat) (w : World) : World :=
  if pid ≤ 100 then kill_loop (pid + 1) (w.emit (.process_kill pid)) else w
termination_by 101 - pid

/-- The function `shutdown_user` (kshell.c lines 514-581). Whether the write
to the power port switches the machine off is a property of the platform
(`Env.power_off_works`); if it does not, the code goes on to `halt`, which
does not return. -/
def shutdown_user (env : Env) (w : World) : World :=
  let w := clear w
  let w := w.printf "Powering off... "
  let w := kill_loop 2 w
  let w := if w.stddir.isSome then sys_object_close KNO_STDDIR w else w
  let w := w.emit (.busy_wait 400000000)
  let w := w.printf "Done\n"
  let w := w.emit (.busy_wait 400000000)
  let w := w.emit (.outw 0x604 0x2000)
  if env.power_off_works then { w with machine := .poweredOff }
  else
    let w := clear w
    let w := w.printf "System halted.\n"
    let w := w.printf "The system could not be shut down via ACPI.\n"
    let w := w.emit .halt
    { w with machine := .halted }

/-! ## Directory lister -/

/-- The function `kshell_printdir` (kshell.c lines 79-88) on the bytes found
at `d`. -/
def kshell_printdir (d : List Char) (length : Int) (w : World) : Int × World :=
  if length > 0 then
    kshell_printdir (d.drop ((c_string d).length + 1)) (length - ((c_string d).length + 1))
      (w.printf (String.mk (c_string d) ++ "\n"))
  else (0, w)
termination_by length.toNat
decreasing_by omega

/-- The function `kshell_listdir` (kshell.c lines 90-110). -/
def kshell_listdir (env : Env) (path : String) (w : World) : Int × World :=
  let w := w.emit (.fs_resolve path)
  match env.fs_resolve path with
  | some d =>
    let w := w.emit (.kmalloc 1024)
    if env.kmalloc 1024 then
      let w := w.emit (.fs_dirent_list d 1024)
      let length := (env.fs_dirent_list d 1024).1
      let w :=
        if length ≥ 0 then (kshell_printdir (env.fs_dirent_list d 1024).2 length w).2
        else w.printf ("list: " ++ path ++ " is not a directory\n")
      (0, w.emit .kfree)
    else (0, w)
  | none => (0, w.printf ("list: " ++ path ++ " does not exist\n"))

/-! ## Command dispatcher -/

/-- The nested function `print_command_help` of `kshell_execute` (kshell.c
lines 122-205): the detailed help of one command. -/
def print_command_help (command : String) (w : World) : World :=
  if command = "start" then
    w.prints ["start <path> <args>\n",
               "This command begins (or 'starts') a program right away.\n",
               "It does NOT wait for the program to finish — it just runs it and lets you keep doing other things.\n",
               "<path> is where the program is located. For example, /bin/hello\n",
               "<args> are extra words you give to the program (optional), like settings.\n",
               "Example: start /bin/hello World\n",
               "Starts the 'hello' program with the word 'World' as input.\n\n"]
  else if command = "run" then
    w.prints ["run <path> <args>\n",
               "Runs a program, just like 'start', but it waits until the program finishes.\n",
               "This is useful if you want to see what the program does before moving on.\n",
               "At the end, it tells you the result (called an 'exit status').\n",
               "Example: run /bin/update\n",
               "Starts the update program, waits for it to finish, and shows the result.\n\n"]
  else if command = "list" then
    w.prints ["list <directory>\n",
               "Shows you all the files and folders in a certain location (called a directory).\n",
               "f you don't give it a directory, it will show you the root (main) folder.\n",
               "Example: list /home/user\n",
               "Shows files inside the '/home/user' folder.\n\n"]
  else if command = "mount" then
    w.prints ["mount <device> <unit> <fstype>\n",
               "This connects (or 'mounts') a storage device (like a USB or hard drive) to the system.\n",
               "<device> is the name of the hardware, like 'sda' for a hard disk.\n",
               "<unit> is the number of the part (like partition 1, 2, etc).\n",
               "<fstype> is the type of file system (like FAT32, EXT4, etc).\n",
               "Example: mount sda 1 ext4\n",
               "Mounts the first part of the 'sda' disk as an EXT4 file system.\n\n"]
  else if command = "kill" then
    w.prints ["kill <pid>\n",
               "Stops a running program by force.\n",
               "<pid> is the Process ID — a number the computer gives to each running program.\n",
               "You can find it by using the 'ps' or 'top' command if supported.\n",
               "Example: kill 123\n",
               "Stops the program with process ID 123.\n\n"]
  else if command = "reboot" then
    w.prints ["reboot\n",
               "Restarts the entire system — just like pressing the restart button.\n",
               "It closes all programs and boots up fresh.\n\n"]
  else if command = "shutdown" then
    w.prints ["shutdown\n",
               "Turns off the computer completely.\n",
               "Save your work before using this, as it will close everything.\n\n"]
  else if command = "clear" then
    w.prints ["clear\n",
               "Wipes everything off the screen so you get a clean console.\n",
               "This doesn't delete files — it's just like clearing a whiteboard.\n\n"]
  else if command = "neofetch" then
    w.prints ["neofetch\n",
               "Shows information about your system — like its name, version, memory, and more.\n",
               "Often includes a cool logo made from text!\n\n"]
  else if command = "startGUI" then
    w.prints ["startGUI\n",
               "Turns on the graphical user interface (GUI).\n",
               "The GUI is the part of a computer with windows, buttons, and icons.\n",
               "This lets you interact with the computer visually instead of just typing.\n\n"]
  else if command = "cowsay" then
    w.prints ["cowsay <message>\n",
               "A fun command that shows a cartoon cow saying something you type.\n",
               "Example: cowsay Hello!\n",
               "Shows a cow saying 'Hello!'. Just for laughs.\n\n"]
  else if command = "help" then
    w.prints ["help [command]\n",
               "If used by itself (just 'help'), it shows a list of all available commands.\n",
               "If used with a command name (like 'help start'), it gives more details.\n\n"]
  else
    w.prints [("No detailed help available for '" ++ command ++ "'.\n"),
               "Please check the spelling or try just typing: help\n\n"]

/-- The message of `cowsay`: the words joined by single spaces (the two
`strcat` loops of kshell.c lines 313-317 and 357-361). -/
def join_words (words : List String) : String := String.intercalate " " words

/-- The length computed for the message buffer: `strlen(argv[i]) + 1` summed
over the words (kshell.c lines 302-305 and 346-349). -/
def total_len (words : List String) : Int :=
  (words.map (fun t => (t.length : Int) + 1)).sum

/-- Branch `start` of `kshell_execute` (kshell.c lines 208-225). -/
def execute_start (env : Env) (argv : List String) (w : World) : World :=
  if (argv.length : Int) > 1 then
    let w := w.emit (.sys_open_file KNO_STDDIR (argv.getD 1 ""))
    let fd := env.sys_open_file KNO_STDDIR (argv.getD 1 "")
    if fd ≥ 0 then
      let w := w.emit (.sys_process_run fd (argv.drop 1))
      let pid := env.sys_process_run fd (argv.drop 1)
      let w :=
        if pid > 0 then (w.printf ("started process " ++ toString pid ++ "\n")).emit .process_yield
        else w.printf ("couldn't start " ++ argv.getD 1 "" ++ "\n")
      sys_object_close fd w
    else w.printf ("couldn't find " ++ argv.getD 1 "" ++ "\n")
  else w.printf "start: requires argument.\n"

/-- Branch `run` of `kshell_execute` (kshell.c lines 226-247). -/
def execute_run (env : Env) (argv : List String) (w : World) : World :=
  if (argv.length : Int) > 1 then
    let w := w.emit (.sys_open_file KNO_STDDIR (argv.getD 1 ""))
    let fd := env.sys_open_file KNO_STDDIR (argv.getD 1 "")
    if fd ≥ 0 then
      let w := w.emit (.sys_process_run fd (argv.drop 1))
      let pid := env.sys_process_run fd (argv.drop 1)
      let w :=
        if pid > 0 then
          let w := (w.printf ("started process " ++ toString pid ++ "\n")).emit .process_yield
          let w := w.emit (.process_wait_child pid)
          let info := env.process_wait_child pid
          let w := w.printf ("process " ++ toString info.1 ++ " exited with status "
            ++ toString info.2 ++ "\n")
          w.emit (.process_reap info.1)
        else w.printf ("couldn't start " ++ argv.getD 1 "" ++ "\n")
      sys_object_close fd w
    else w.printf ("couldn't find " ++ argv.getD 1 "" ++ "\n")
  else w.printf "run: requires argument\n"

/-- Branch `list` of `kshell_execute` (kshell.c lines 248-255). -/
def execute_list (env : Env) (argv : List String) (w : World) : World :=
  if (argv.length : Int) > 1 then
    (kshell_listdir env (argv.getD 1 "") (w.printf ("\nFiles of '" ++ argv.getD 1 "" ++ "'\n"))).2
  else (kshell_listdir env "." (w.printf "\nFiles of '/'\n")).2

/-- Branch `mount` of `kshell_execute` (kshell.c lines 256-266). -/
def execute_mount (env : Env) (argv : List String) (w : World) : World :=
  if (argv.length : Int) = 4 then
    match env.str2int (argv.getD 2 "") with
    | some unit => (kshell_mount env (argv.getD 1 "") unit (argv.getD 3 "") w).2
    | none => w.printf ("mount: expected unit number but got " ++ argv.getD 2 "" ++ "\n")
  else w.printf "mount: requires device, unit, and fs type\n"

/-- Branch `kill` of `kshell_execute` (kshell.c lines 267-277). -/
def execute_kill (env : Env) (argv : List String) (w : World) : World :=
  if (argv.length : Int) > 1 then
    match env.str2int (argv.getD 1 "") with
    | some pid => w.emit (.process_kill pid)
    | none => w.printf ("kill: expected process id number but got " ++ argv.getD 1 "" ++ "\n")
  else w.printf "kill: requires argument\n"

/-- Branch `mkdir` of `kshell_execute` (kshell.c lines 278-294). -/
def execute_mkdir (env : Env) (argv : List String) (w : World) : World :=
  if (argv.length : Int) = 3 then
    let w := w.emit (.fs_resolve (argv.getD 1 ""))
    match env.fs_resolve (argv.getD 1 "") with
    | some dir =>
      let w := w.emit (.fs_dirent_mkdir dir (argv.getD 2 ""))
      let w :=
        match env.fs_dirent_mkdir dir (argv.getD 2 "") with
        | none => w.printf ("mkdir: couldn't create " ++ argv.getD 2 "" ++ "\n")
        | some n => w.emit (.fs_dirent_close n)
      w.emit (.fs_dirent_close dir)
    | none => w.printf ("mkdir: couldn't open " ++ argv.getD 1 "" ++ "\n")
  else w.printf "use: mkdir <parent-dir> <dirname>\n"

/-- Branch `shutdown` of `kshell_execute` (kshell.c lines 297-327). The two
`return -1` statements leave `kshell_execute` before `shutdown_user`; where
`shutdown_user` is reached the function does not return. -/
def execute_shutdown (env : Env) (argv : List String) (w : World) : Option Int × World :=
  if (argv.length : Int) > 1 ∧ argv.getD 1 "" = "cowsay" then
    if (argv.length : Int) > 2 then
      let w := w.emit (.kmalloc (total_len (argv.drop 2)))
      if env.kmalloc (total_len (argv.drop 2)) then
        let w := cowsay (join_words (argv.drop 2)) w
        let w := w.emit .kfree
        (none, shutdown_user env w)
      else (some (-1), w.printf "shutdown cowsay: memory allocation failed.\n")
    else (some (-1), w.printf "Usage: shutdown cowsay <message>\n")
  else (none, shutdown_user env w)

/-- Branch `unmount` of `kshell_execute` (kshell.c lines 336-342). -/
def execute_unmount (w : World) : World :=
  if w.stddir.isSome then
    sys_object_close KNO_STDDIR (w.printf "\nunmounting root directory\n")
  else w.printf "\nnothing currently mounted\n"

/-- Branch `cowsay` of `kshell_execute` (kshell.c lines 343-367). -/
def execute_cowsay (env : Env) (argv : List String) (w : World) : Option Int × World :=
  if (argv.length : Int) > 1 then
    let w := w.emit (.kmalloc (total_len (argv.drop 1)))
    if env.kmalloc (total_len (argv.drop 1)) then
      let w := cowsay (join_words (argv.drop 1)) w
      (some 0, w.emit .kfree)
    else (some (-1), w.printf "cowsay: memory allocation failed.\n")
  else (some 0, w.printf "Usage: cowsay <message>\n")

/-- Branch `contents` of `kshell_execute` (kshell.c lines 368-408). The store
`buffer[bytes_read] = 0` is recorded with the size of the buffer it goes to. -/
def execute_contents (env : Env) (argv : List String) (w : World) : World :=
  if (argv.length : Int) > 1 then
    let filepath := argv.getD 1 ""
    let w := w.printf ("Reading file: " ++ filepath ++ "\n")
    let w := w.emit (.sys_open_file KNO_STDDIR filepath)
    let fd := env.sys_open_file KNO_STDDIR filepath
    if fd < 0 then w.printf ("Failed to open file: " ++ filepath ++ "\n")
    else
      let w := w.emit (.kmalloc 4096)
      if env.kmalloc 4096 then
        let w := w.emit (.sys_object_read fd 4096)
        let bytes_read := (env.sys_object_read fd 4096).1
        let w :=
          if bytes_read > 0 then
            let w := w.emit (.store 4096 bytes_read)
            w.printf ("\x0c" ++ String.mk (c_string ((env.sys_object_read fd 4096).2.take
              bytes_read.toNat)) ++ "\n")
          else w.printf "File read failed or is empty\n"
        let w := w.emit .kfree
        let w := sys_object_close fd w
        w.emit (.busy_wait 100000000)
      else sys_object_close fd (w.printf "Memory allocation failed\n")
  else w.printf "Usage: contents <filepath>\n"

/-- The texts printed by `help` without argument (kshell.c lines 411-426), one
per call of `printf`. -/
def help_listing : List String :=
  ["\nCommands:\n",
   "start <path> <args>\n",
   "run <path> <args>\n",
   "list <directory>\n",
   "mount <device> <unit> <fstype>\n",
   "kill <pid>\n",
   "reboot\n",
   "shutdown\n",
   "clear\n",
   "neofetch\n",
   "startGUI\n",
   "automount\n",
   "unmount\n",
   "help <command>\n",
   "contents <file>",
   "cowsay\n\n"]

/-- Branch `help` of `kshell_execute` (kshell.c lines 409-431). -/
def execute_help (argv : List String) (w : World) : World :=
  if (argv.length : Int) = 1 then w.prints help_listing
  else if (argv.length : Int) = 2 then print_command_help (argv.getD 1 "") w
  else w.printf "Usage: help [command]\n"

/-- The verbs `kshell_execute` compares `argv[0]` with, in the order of its
chain of `strcmp` tests (kshell.c lines 208-409). -/
def dispatched_verbs : List String :=
  ["start", "run", "list", "mount", "kill", "mkdir", "reboot", "shutdown", "clear",
   "neofetch", "startGUI", "automount", "unmount", "cowsay", "contents", "help"]

/-- The whole output of `help` without argument, as one text. -/
def help_output : String := String.join help_listing

/-- The text of the last branch of `kshell_execute` (kshell.c line 433). -/
def not_found_text (cmd : String) : String :=
  cmd ++ ": command not found                                                                       :(\n"

/-- The function `kshell_execute` (kshell.c lines 112-437); `argc` is the
length of `argv`. The value is `none` when the function does not return
(reboot, power off, halt). -/
def kshell_execute (env : Env) (argv : List String) (w : World) : Option Int × World :=
  if (argv.length : Int) < 1 then (some (-1), w.printf "No command provided.\n")
  else
    let cmd := argv.getD 0 ""
    if cmd = "start" then (some 0, execute_start env argv w)
    else if cmd = "run" then (some 0, execute_run env argv w)
    else if cmd = "list" then (some 0, execute_list env argv w)
    else if cmd = "mount" then (some 0, execute_mount env argv w)
    else if cmd = "kill" then (some 0, execute_kill env argv w)
    else if cmd = "mkdir" then (some 0, execute_mkdir env argv w)
    else if cmd = "reboot" then (none, { w.emit .reboot with machine := .rebooted })
    else if cmd = "shutdown" then execute_shutdown env argv w
    else if cmd = "clear" then (some 0, clear w)
    else if cmd = "neofetch" then (some 0, neofetch env w)
    else if cmd = "startGUI" then (some 0, (GUI env w).2)
    else if cmd = "automount" then (some 0, (automount env w).2)
    else if cmd = "unmount" then (some 0, execute_unmount w)
    else if cmd = "cowsay" then execute_cowsay env argv w
    else if cmd = "contents" then (some 0, execute_contents env argv w)
    else if cmd = "help" then (some 0, execute_help argv w)
    else (some 0, w.printf (not_found_text cmd))

/-! ## Shell loop -/

/-- Outcome of one turn of the shell loop: the world afterwards and, when
`kshell_execute` was called, the arguments it was called with. -/
structure Turn where
  world : World
  executed : Option (List String)
  deriving DecidableEq, Repr

/-- What one turn of the shell loop comes to: it waits for a keystroke that
never comes; or the tokenizing loop stores at an index outside the array
`argv`, after which C defines nothing; or the turn runs to its end. -/
inductive TurnOutcome where
  | waiting
  | argv_overflow
  | completed (turn : Turn)
  deriving DecidableEq, Repr

/-- One turn of the loop `while(1)` of `kshell_launch` (kshell.c lines
680-695). The array `line` lives on the stack and keeps what earlier turns
left in it, so its content on entry is a parameter. The value returned by
`kshell_readline` is not looked at. `strtok` scans the C string found in the
buffer (for a buffer without NUL, C would read past its end; here the scan
stops at the end of the buffer). The array `argv` has `ARGV_CAPACITY` entries
and the loop does not test `argc`: when one of its stores has an index
outside the array the outcome is `argv_overflow`; otherwise `argv` holds the
stored tokens and the test `argc > 0` decides the call of `kshell_execute`. -/
def kshell_launch_turn (env : Env) (line : List Char) (w : World) : TurnOutcome :=
  let w := w.printf "\n"
  let w := w.printf "root@Doors: /core/NexShell# "
  match kshell_readline line LINE_CAPACITY w with
  | none => .waiting
  | some (_, line1, w1) =>
    let argc := (kshell_tokenize (c_string line1)).1
    let stores := (kshell_tokenize (c_string line1)).2
    if ∀ store ∈ stores, store.1 < ARGV_CAPACITY then
      let argv := (stored_tokens stores).map String.mk
      if argc > 0 then
        .completed { world := (kshell_execute env argv w1).2, executed := some argv }
      else .completed { world := w1, executed := none }
    else .argv_overflow

/-- The statements of `kshell_launch` before its loop (kshell.c lines
669-678). -/
def kshell_launch_boot (env : Env) (w : World) : World :=
  let w := w.printf "acpi: Installed for shutdown\n\n"
  let w := w.printf "Mounting root filesystem\n"
  let w := (automount env w).2
  let w := neofetch env w
  (GUI env w).2

/-- The stores into `argv` that hold the tokens `ts` from index `start` on and
a null pointer after the last of them. -/
def argv_stores : Nat → List (List Char) → List (Nat × Option (List Char))
  | start, [] => [(start, none)]
  | start, t :: ts => (start, some t) :: argv_stores (start + 1) ts

/-- The prompt printed at the start of every turn of the shell loop. -/
def prompt : List Event := [.printf "\n", .printf "root@Doors: /core/NexShell# "]

/-! ## Sample kernels used to instantiate the theorems -/

/-- A kernel in which every routine succeeds: one device, one driver, one
volume with a root directory. -/
def env_ok : Env where
  device_open := fun _ _ => some 7
  device_name := fun _ => "atapi"
  device_unit := fun _ => 0
  fs_lookup := fun _ => some 1
  fs_volume_open := fun _ _ => some 2
  fs_volume_root := fun _ => some 3
  kobject_create_dir := fun d => some (d + 10)
  fs_resolve := fun _ => some 5
  fs_dirent_list := fun _ _ => (0, [])
  fs_dirent_mkdir := fun _ _ => some 6
  kmalloc := fun _ => true
  sys_open_file := fun _ _ => 5
  sys_object_read := fun _ _ => (0, [])
  sys_process_run := fun _ _ => 2
  process_wait_child := fun pid => (pid, 0)
  str2int := fun s => s.toInt?
  power_off_works := false
  video_xres := 1024
  video_yres := 768

/-- The kernel `env_ok` without any filesystem driver. -/
def env_no_driver : Env := { env_ok with fs_lookup := fun _ => none }

/-- The kernel `env_ok` in which `kobject_create_dir` returns a null
pointer. -/
def env_null_object : Env := { env_ok with kobject_create_dir := fun _ => none }

/-- The kernel `env_ok` whose allocator always fails. -/
def env_no_memory : Env := { env_ok with kmalloc := fun _ => false }

/-- The word `reboot` followed by 1017 spaces: 1023 keystrokes, no carriage
return. -/
def held_space_keys : List Char := "reboot".toList ++ List.replicate 1017 ' '

/-- The line made of `n` words `a`, each followed by one space. -/
def repeated_word : Nat → List Char
  | 0 => []
  | n + 1 => 'a' :: ' ' :: repeated_word n

/-- The bytes of a directory listing: every name followed by one NUL byte, in
order. -/
def dir_buffer : List (List Char) → List Char
  | [] => []
  | name :: names => name ++ NUL :: dir_buffer names

/-- The lines that show the names, one call of `printf` per name. -/
def dir_lines (names : List (List Char)) : List Event :=
  names.map (fun name => Event.printf (String.mk name ++ "\n"))

/-- The kernel `env_ok` whose directory listing holds the names `names`, in a
buffer that carries `junk` after them. -/
def env_listing (names : List (List Char)) (junk : List Char) : Env :=
  { env_ok with fs_dirent_list := fun _ _ =>
      (((dir_buffer names).length : Int), dir_buffer names ++ junk) }

/-- The kernel `env_ok` in which the file read fills the whole request: 4096
bytes `x` for a capacity of 4096. -/
def env_full_read : Env :=
  { env_ok with sys_object_read := fun _ capacity => (4096, List.replicate capacity 'x') }

/-- A freshly booted machine: nothing mounted, nothing printed, no input. -/
def world0 : World := { stddir := none, trace := [], input := [], machine := .running }

/-! ## Theorems -/

/-- The paths of `kshell_mount`, one per outcome of the kernel routines: every
path that opened the device ends at a `return` before the calls that close
the volume and the device. -/
theorem kshell_mount_paths (env : Env) (devname : String) (unit : Int) (fs_type : String)
    (w : World) :
    kshell_mount env devname unit fs_type w =
      if w.stddir.isSome then
        (-1, w.emit (.printf "root filesystem already mounted, please unmount first\n"))
      else
        match env.device_open devname unit with
        | some dev =>
          match env.fs_lookup fs_type with
          | some fs =>
            match env.fs_volume_open fs dev with
            | some v =>
              match env.fs_volume_root v with
              | some d =>
                (0, { ((((w.emit (.device_open devname unit)).emit (.fs_lookup fs_type)).emit
                    (.fs_volume_open fs dev)).emit (.fs_volume_root v)).emit
                    (.kobject_create_dir d) with stddir := env.kobject_create_dir d })
              | none =>
                (-1, ((((w.emit (.device_open devname unit)).emit (.fs_lookup fs_type)).emit
                    (.fs_volume_open fs dev)).emit (.fs_volume_root v)).emit
                  (.printf ("mount: couldn't find root dir on " ++ env.device_name dev
                    ++ " unit " ++ toString (env.device_unit dev) ++ "!\n")))
            | none =>
              (-1, (((w.emit (.device_open devname unit)).emit (.fs_lookup fs_type)).emit
                  (.fs_volume_open fs dev)).emit
                (.printf ("mount: couldn't mount " ++ fs_type ++ " on "
                  ++ env.device_name dev ++ " unit " ++ toString (env.device_unit dev)
                  ++ "\n")))
          | none =>
            (-1, ((w.emit (.device_open devname unit)).emit (.fs_lookup fs_type)).emit
              (.printf ("mount: invalid fs type: " ++ fs_type ++ "\n")))
        | none =>
          (-1, (w.emit (.device_open devname unit)).emit
            (.printf ("mount: couldn't open device " ++ devname ++ " unit "
              ++ toString unit ++ "\n"))) := by
  unfold kshell_mount
  cases w.stddir.isSome with
  | true => rfl
  | false =>
    cases env.device_open devname unit with
    | none => rfl
    | some dev =>
      dsimp only
      cases env.fs_lookup fs_type with
      | none => rfl
      | some fs =>
        dsimp only
        cases env.fs_volume_open fs dev with
        | none => rfl
        | some v =>
          dsimp only
          cases env.fs_volume_root v with
          | none => rfl
          | some d => rfl

/-- C1, as amended: `kshell_mount` returns 0 exactly when the mount slot was
empty on entry and `device_open`, `fs_lookup`, `fs_volume_open` and
`fs_volume_root` all succeed, and otherwise returns -1; on 0 the slot holds
what `kobject_create_dir` returned for the root of that volume; on -1 the slot
is unchanged; with the slot populated it returns -1 having only printed the
refusal, so no device is opened; and once a mount has returned 0 and left an
object in the slot, every further mount request, whatever the kernel routines
do, returns -1 and leaves that object in the slot, until `unmount` empties the
slot. -/
theorem kshell_mount_contract (env : Env) (devname : String) (unit : Int)
    (fs_type : String) (w : World) :
    ((kshell_mount env devname unit fs_type w).1 = 0 ↔
      w.stddir = none ∧ ∃ dev fs v d, env.device_open devname unit = some dev ∧
        env.fs_lookup fs_type = some fs ∧ env.fs_volume_open fs dev = some v ∧
        env.fs_volume_root v = some d) ∧
    ((kshell_mount env devname unit fs_type w).1 = 0 ∨
      (kshell_mount env devname unit fs_type w).1 = -1) ∧
    (∀ dev fs v d, w.stddir = none → env.device_open devname unit = some dev →
      env.fs_lookup fs_type = some fs → env.fs_volume_open fs dev = some v →
      env.fs_volume_root v = some d →
      (kshell_mount env devname unit fs_type w).2.stddir = env.kobject_create_dir d) ∧
    ((kshell_mount env devname unit fs_type w).1 = -1 →
      (kshell_mount env devname unit fs_type w).2.stddir = w.stddir) ∧
    (w.stddir ≠ none →
      (kshell_mount env devname unit fs_type w).1 = -1 ∧
      (kshell_mount env devname unit fs_type w).2.trace = w.trace ++
        [Event.printf "root filesystem already mounted, please unmount first\n"]) ∧
    (∀ k, (kshell_mount env devname unit fs_type w).1 = 0 →
      (kshell_mount env devname unit fs_type w).2.stddir = some k →
      ∀ calls : List (Env × String × Int × String),
        (mount_each calls (kshell_mount env devname unit fs_type w).2).1
            = calls.map (fun _ => -1) ∧
        (mount_each calls (kshell_mount env devname unit fs_type w).2).2.stddir = some k ∧
        (execute_unmount
          (mount_each calls (kshell_mount env devname unit fs_type w).2).2).stddir = none) := by
  have hfull : ∀ k, w.stddir = some k →
      kshell_mount env devname unit fs_type w = (-1, w.emit
        (.printf "root filesystem already mounted, please unmount first\n")) := by
    intro k hk
    simp [kshell_mount_paths, hk]
  refine ⟨?_, ?_, ?_, ?_, ?_, ?_⟩
  · cases hs : w.stddir with
    | some k => simp [hfull k hs]
    | none =>
      cases h1 : env.device_open devname unit with
      | none => simp [kshell_mount_paths, hs, h1]
      | some dev =>
        cases h2 : env.fs_lookup fs_type with
        | none => simp [kshell_mount_paths, hs, h1, h2]
        | some fs =>
          cases h3 : env.fs_volume_open fs dev with
          | none => simp [kshell_mount_paths, hs, h1, h2, h3]
          | some v =>
            cases h4 : env.fs_volume_root v with
            | none => simp [kshell_mount_paths, hs, h1, h2, h3, h4]
            | some d => simp [kshell_mount_paths, hs, h1, h2, h3, h4]
  · rw [kshell_mount_paths]
    repeat' split
    all_goals simp
  · intro dev fs v d hs h1 h2 h3 h4
    simp [kshell_mount_paths, hs, h1, h2, h3, h4]
  · rw [kshell_mount_paths]
    repeat' split
    all_goals simp [World.emit]
  · intro hs
    obtain ⟨k, hk⟩ := Option.ne_none_iff_exists'.mp hs
    simp [hfull k hk, World.emit]
  · intro k _ hk calls
    generalize kshell_mount env devname unit fs_type w = r at hk
    obtain ⟨r1, w1⟩ := r
    simp only at hk ⊢
    induction calls generalizing w1 with
    | nil => simp [mount_each, hk, execute_unmount, sys_object_close, World.printf, World.emit]
    | cons c rest ih =>
      obtain ⟨e, dn, u, ft⟩ := c
      have hstep : kshell_mount e dn u ft w1 = (-1, w1.emit
          (.printf "root filesystem already mounted, please unmount first\n")) := by
        simp [kshell_mount_paths, hk]
      have hslot : (w1.emit
          (.printf "root filesystem already mounted, please unmount first\n")).stddir
            = some k := by
        simp [World.emit, hk]
      have := ih _ hslot
      simp [mount_each, hstep, this]

/-- C1, as amended, instance: on a freshly booted machine whose kernel routines all
succeed, mounting the first optical unit returns 0 and installs object 13;
two further requests then return -1 and leave object 13 in the slot, and an
unmount after them empties it. -/
theorem kshell_mount_contract_witness :
    (kshell_mount env_ok "atapi" 0 "cdromfs" world0).1 = 0 ∧
    (mount_each [(env_ok, "atapi", 1, "cdromfs"), (env_ok, "ata", 0, "simplefs")]
        (kshell_mount env_ok "atapi" 0 "cdromfs" world0).2).1
      = [(env_ok, "atapi", (1 : Int), "cdromfs"), (env_ok, "ata", 0, "simplefs")].map
          (fun _ => -1) ∧
    (mount_each [(env_ok, "atapi", 1, "cdromfs"), (env_ok, "ata", 0, "simplefs")]
        (kshell_mount env_ok "atapi" 0 "cdromfs" world0).2).2.stddir = some 13 ∧
    (execute_unmount
      (mount_each [(env_ok, "atapi", 1, "cdromfs"), (env_ok, "ata", 0, "simplefs")]
        (kshell_mount env_ok "atapi" 0 "cdromfs" world0).2).2).stddir = none :=
  ⟨(kshell_mount_contract env_ok "atapi" 0 "cdromfs" world0).1.mpr
      ⟨rfl, 7, 1, 2, 3, rfl, rfl, rfl, rfl⟩,
    (kshell_mount_contract env_ok "atapi" 0 "cdromfs" world0).2.2.2.2.2 13
      ((kshell_mount_contract env_ok "atapi" 0 "cdromfs" world0).1.mpr
        ⟨rfl, 7, 1, 2, 3, rfl, rfl, rfl, rfl⟩) rfl
      [(env_ok, "atapi", 1, "cdromfs"), (env_ok, "ata", 0, "simplefs")]⟩

/-- C1, counterexample: when `kobject_create_dir` returns a null pointer, a
mount on a freshly booted machine returns 0 and leaves the slot empty (the
result of `kobject_create_dir` is stored without a test), and the mount
request that follows, with no unmount in between, returns 0 as well. -/
theorem kshell_mount_null_object_remounts :
    (kshell_mount env_null_object "atapi" 0 "cdromfs" world0).1 = 0 ∧
    (kshell_mount env_null_object "atapi" 0 "cdromfs" world0).2.stddir = none ∧
    (kshell_mount env_null_object "atapi" 1 "cdromfs"
      (kshell_mount env_null_object "atapi" 0 "cdromfs" world0).2).1 = 0 ∧
    (mount_each [(env_null_object, "atapi", 1, "cdromfs")]
        (kshell_mount env_null_object "atapi" 0 "cdromfs" world0).2).1
      ≠ [(env_null_object, "atapi", (1 : Int), "cdromfs")].map (fun _ => -1) := by
  have h1 : kshell_mount env_null_object "atapi" 0 "cdromfs" world0 =
      (0, { world0 with trace := [.device_open "atapi" 0, .fs_lookup "cdromfs",
        .fs_volume_open 1 7, .fs_volume_root 2, .kobject_create_dir 3] }) := by
    simp [kshell_mount_paths, env_null_object, env_ok, world0, World.emit]
  have h2 : (kshell_mount env_null_object "atapi" 1 "cdromfs"
      (kshell_mount env_null_object "atapi" 0 "cdromfs" world0).2).1 = 0 := by
    rw [h1]
    simp [kshell_mount_paths, env_null_object, env_ok, world0, World.emit]
  refine ⟨by rw [h1], by rw [h1]; rfl, h2, ?_⟩
  simp [mount_each, h2]

/-- Events appended by `kshell_mount`: whatever the kernel routines do, none
of them is a `device_close` or an `fs_volume_close`. -/
theorem kshell_mount_trace_no_close (env : Env) (devname : String) (unit : Int)
    (fs_type : String) (w : World) :
    ∃ evs, (kshell_mount env devname unit fs_type w).2.trace = w.trace ++ evs ∧
      (∀ dev, Event.device_close dev ∉ evs) ∧ (∀ v, Event.fs_volume_close v ∉ evs) := by
  rw [kshell_mount_paths]
  repeat' split
  all_goals simp [World.emit]

/-- C2, defect in the code: on a freshly booted machine where
`device_open("atapi", 0)` yields device 7 and `fs_lookup("cdromfs")` finds no
driver, `kshell_mount` returns -1 after exactly three actions, the open, the
lookup and the message; device 7 is never closed. -/
theorem kshell_mount_leaks_device :
    env_no_driver.device_open "atapi" 0 = some 7 ∧
    kshell_mount env_no_driver "atapi" 0 "cdromfs" world0 =
      (-1, { world0 with trace :=
        [.device_open "atapi" 0, .fs_lookup "cdromfs",
         .printf "mount: invalid fs type: cdromfs\n"] }) ∧
    Event.device_close 7 ∉ (kshell_mount env_no_driver "atapi" 0 "cdromfs" world0).2.trace := by
  refine ⟨rfl, ?_, ?_⟩
  · simp [kshell_mount_paths, env_no_driver, env_ok, world0, World.emit]
  · simp [kshell_mount_paths, env_no_driver, env_ok, world0, World.emit]

/-- One probing loop, run on a recording mount routine: the log grows by the
requests for a prefix of the units, in order; when the loop reports success
the last logged request returned 0 and no earlier one did; when it does not,
every unit was requested and none returned 0. Recording does not change what
the loop computes. -/
theorem automount_probe_recorded {σ : Type} (mount : String → Int → String → σ → Int × σ)
    (printf : String → σ → σ) (devname fs_type : String) (units : List Int) (s : σ)
    (log : List (Candidate × Int)) :
    ∃ entries,
      (automount_probe (recording mount) (recording_printf printf) devname fs_type units
        (s, log)).2.2 = log ++ entries ∧
      (automount_probe (recording mount) (recording_printf printf) devname fs_type units
        (s, log)).2.1 = (automount_probe mount printf devname fs_type units s).2 ∧
      (automount_probe (recording mount) (recording_printf printf) devname fs_type units
        (s, log)).1 = (automount_probe mount printf devname fs_type units s).1 ∧
      (∃ rest, entries.map Prod.fst ++ rest = units.map (fun i => (devname, i, fs_type))) ∧
      ((automount_probe mount printf devname fs_type units s).1 = true →
        ∃ init c, entries = init ++ [(c, 0)] ∧ ∀ e ∈ init, e.2 ≠ 0) ∧
      ((automount_probe mount printf devname fs_type units s).1 = false →
        entries.map Prod.fst = units.map (fun i => (devname, i, fs_type)) ∧
        ∀ e ∈ entries, e.2 ≠ 0) := by
  induction units generalizing s log with
  | nil => exact ⟨[], by simp [automount_probe]⟩
  | cons i rest ih =>
    by_cases h0 : (mount devname i fs_type
        (printf ("automount: trying " ++ devname ++ " unit " ++ toString i ++ ".\n") s)).1 = 0
    · refine ⟨[((devname, i, fs_type), 0)], ?_⟩
      simp [automount_probe, recording, recording_printf, h0]
      exact ⟨[], ⟨devname, i, fs_type, by simp⟩, by simp⟩
    · obtain ⟨entries, h1, h2, h3, ⟨tl, h4⟩, h5, h6⟩ := ih
        (mount devname i fs_type
          (printf ("automount: trying " ++ devname ++ " unit " ++ toString i ++ ".\n") s)).2
        (log ++ [((devname, i, fs_type), (mount devname i fs_type
          (printf ("automount: trying " ++ devname ++ " unit " ++ toString i ++ ".\n") s)).1)])
      refine ⟨((devname, i, fs_type), (mount devname i fs_type
          (printf ("automount: trying " ++ devname ++ " unit " ++ toString i ++ ".\n") s)).1)
            :: entries, ?_⟩
      simp only [automount_probe, recording, recording_printf, h0, if_false] at h1 h2 h3 h5 h6 ⊢
      refine ⟨by simpa using h1, h2, h3, ⟨tl, by simpa using h4⟩, ?_, ?_⟩
      · intro hb
        obtain ⟨init, c, hi, hne⟩ := h5 hb
        refine ⟨((devname, i, fs_type), (mount devname i fs_type
          (printf ("automount: trying " ++ devname ++ " unit " ++ toString i ++ ".\n") s)).1)
            :: init, c, by simp [hi], ?_⟩
        intro e he
        rcases List.mem_cons.mp he with rfl | he
        · exact h0
        · exact hne e he
      · intro hb
        obtain ⟨hm, hne⟩ := h6 hb
        refine ⟨by simp [hm], ?_⟩
        intro e he
        rcases List.mem_cons.mp he with rfl | he
        · exact h0
        · exact hne e he

/-- C3: run on any mount routine whatever, `automount` requests the
candidates ("atapi", 0..3, "cdromfs") then ("ata", 0..3, "simplefs") in that
order, each at most once (the requests made are an initial segment of that
list, which has no repetition). Either it returns 0, the last request made is
the first one that returned 0 and nothing is requested after it; or it returns
-1, all 8 candidates were requested, exactly 8 requests were made and none
returned 0. The requests are observed by a recording mount routine, which
leaves the result of `automount` as it is. -/
theorem automount_probe_order {σ : Type} (mount : String → Int → String → σ → Int × σ)
    (printf : String → σ → σ) (s : σ) :
    ∃ log : List (Candidate × Int),
      automount_with (recording mount) (recording_printf printf) (s, []) =
        ((automount_with mount printf s).1, ((automount_with mount printf s).2, log)) ∧
      (log.map Prod.fst).Nodup ∧
      (∃ rest, log.map Prod.fst ++ rest = automount_candidates) ∧
      (((automount_with mount printf s).1 = 0 ∧
          ∃ init c, log = init ++ [(c, 0)] ∧ ∀ e ∈ init, e.2 ≠ 0) ∨
        ((automount_with mount printf s).1 = -1 ∧
          log.map Prod.fst = automount_candidates ∧ log.length = 8 ∧
          ∀ e ∈ log, e.2 ≠ 0)) := by
  have hnodup : automount_candidates.Nodup := by decide
  obtain ⟨e1, a1, a2, a3, ⟨t1, a4⟩, a5, a6⟩ :=
    automount_probe_recorded mount printf "atapi" "cdromfs" [0, 1, 2, 3] s []
  suffices hmain : ∃ log : List (Candidate × Int),
      automount_with (recording mount) (recording_printf printf) (s, []) =
        ((automount_with mount printf s).1, ((automount_with mount printf s).2, log)) ∧
      (∃ rest, log.map Prod.fst ++ rest = automount_candidates) ∧
      (((automount_with mount printf s).1 = 0 ∧
          ∃ init c, log = init ++ [(c, 0)] ∧ ∀ e ∈ init, e.2 ≠ 0) ∨
        ((automount_with mount printf s).1 = -1 ∧
          log.map Prod.fst = automount_candidates ∧ log.length = 8 ∧
          ∀ e ∈ log, e.2 ≠ 0)) by
    obtain ⟨log, h1, ⟨rest, h2⟩, h3⟩ := hmain
    refine ⟨log, h1, ?_, ⟨rest, h2⟩, h3⟩
    have : (log.map Prod.fst ++ rest).Nodup := h2 ▸ hnodup
    exact (List.nodup_append.mp this).1
  cases hb1 : (automount_probe mount printf "atapi" "cdromfs" [0, 1, 2, 3] s).1 with
  | true =>
    obtain ⟨init, c, hi, hne⟩ := a5 hb1
    refine ⟨e1, ?_, ⟨t1 ++ [("ata", 0, "simplefs"), ("ata", 1, "simplefs"),
      ("ata", 2, "simplefs"), ("ata", 3, "simplefs")], ?_⟩, Or.inl ⟨?_, init, c, hi, hne⟩⟩
    · have hb1r := a3.trans hb1
      simp only [automount_with, hb1, hb1r, if_true]
      ext <;> simp [a1, a2]
    · rw [← List.append_assoc, a4]
      rfl
    · simp [automount_with, hb1]
  | false =>
    obtain ⟨hm1, hne1⟩ := a6 hb1
    obtain ⟨e2, b1, b2, b3, ⟨t2, b4⟩, b5, b6⟩ :=
      automount_probe_recorded mount printf "ata" "simplefs" [0, 1, 2, 3]
        (automount_probe mount printf "atapi" "cdromfs" [0, 1, 2, 3] s).2 e1
    have hb1r := a3.trans hb1
    have hstate : (automount_probe (recording mount) (recording_printf printf) "atapi"
        "cdromfs" [0, 1, 2, 3] (s, [])).2 =
        ((automount_probe mount printf "atapi" "cdromfs" [0, 1, 2, 3] s).2, e1) := by
      ext <;> simp [a1, a2]
    cases hb2 : (automount_probe mount printf "ata" "simplefs" [0, 1, 2, 3]
        (automount_probe mount printf "atapi" "cdromfs" [0, 1, 2, 3] s).2).1 with
    | true =>
      obtain ⟨init, c, hi, hne⟩ := b5 hb2
      have hb2r := b3.trans hb2
      refine ⟨e1 ++ e2, ?_, ⟨t2, ?_⟩, Or.inl ⟨?_, e1 ++ init, c, by simp [hi], ?_⟩⟩
      · simp only [automount_with, hb1, hb1r, hstate, hb2, hb2r, if_true]
        ext <;> simp [b1, b2]
      · rw [List.map_append, List.append_assoc, b4, hm1]
        rfl
      · simp [automount_with, hb1, hb2]
      · intro e he
        rcases List.mem_append.mp he with he | he
        · exact hne1 e he
        · exact hne e he
    | false =>
      obtain ⟨hm2, hne2⟩ := b6 hb2
      have hb2r := b3.trans hb2
      have hmap : (e1 ++ e2).map Prod.fst = automount_candidates := by
        rw [List.map_append, hm1, hm2]
        rfl
      refine ⟨e1 ++ e2, ?_, ⟨[], by simp [hmap]⟩, Or.inr ⟨?_, hmap, ?_, ?_⟩⟩
      · simp only [automount_with, hb1, hb1r, hstate, hb2, hb2r]
        ext <;> simp [b1, b2, recording_printf]
      · simp [automount_with, hb1, hb2]
      · have := congrArg List.length hmap
        simpa [automount_candidates] using this
      · intro e he
        rcases List.mem_append.mp he with he | he
        · exact hne1 e he
        · exact hne2 e he

/-- The accumulated content of a prefix extended by one keystroke. -/
theorem accumulated_from_cons (acc : List Char) (c : Char) (cs : List Char) :
    accumulated_from acc (c :: cs) = accumulated_from (edit_step acc c) cs := rfl

/-- A turn of the loop of `kshell_readline` that reads a carriage return. -/
theorem kshell_readline_loop_cr (length : Int) (rest line : List Char) (i : Nat)
    (out : List Event) (hi : (i : Int) < length - 1) :
    kshell_readline_loop length (ASCII_CR :: rest) line i out =
      some (1, line.set i NUL, rest, out ++ [.printf "\n"]) := by
  simp [kshell_readline_loop, hi]

/-- A turn of the loop of `kshell_readline` that reads any other code. -/
theorem kshell_readline_loop_step (length : Int) (c : Char) (rest line : List Char) (i : Nat)
    (out : List Event) (hi : (i : Int) < length - 1) (hc : c ≠ ASCII_CR) :
    kshell_readline_loop length (c :: rest) line i out =
      if c = ASCII_BS then
        if i > 0 then kshell_readline_loop length rest line (i - 1) (out ++ [.putchar c])
        else kshell_readline_loop length rest line i out
      else if printable c then
        kshell_readline_loop length rest (line.set i c) (i + 1) (out ++ [.putchar c])
      else kshell_readline_loop length rest line i out := by
  simp [kshell_readline_loop, hi, hc]

/-- The loop of `kshell_readline` is left with 0 once the index has reached
`length - 1`, whatever the keystrokes. -/
theorem kshell_readline_loop_full (length : Int) (input line : List Char) (i : Nat)
    (out : List Event) (hi : ¬ (i : Int) < length - 1) :
    kshell_readline_loop length input line i out = some (0, line, input, out) := by
  cases input <;> simp [kshell_readline_loop, hi]

/-- The loop of `kshell_readline` entered at index `i` with the content
`line.take i`, on keystrokes `pre` without carriage return followed by a
carriage return, the content staying below `length - 1` throughout: it returns
1 with the content accumulated by the spec, a NUL after it, the echo of the
spec and a newline. -/
theorem kshell_readline_loop_complete (length : Int) (rest : List Char) :
    ∀ (pre line : List Char) (i : Nat) (out : List Event),
      length ≤ line.length → ASCII_CR ∉ pre →
      (∀ n ≤ pre.length,
        ((accumulated_from (line.take i) (pre.take n)).length : Int) < length - 1) →
      ∃ tail,
        kshell_readline_loop length (pre ++ ASCII_CR :: rest) line i out =
          some (1, accumulated_from (line.take i) pre ++ NUL :: tail, rest,
            out ++ echoed_from (line.take i) pre ++ [.printf "\n"]) ∧
        (accumulated_from (line.take i) pre ++ NUL :: tail).length = line.length := by
  intro pre
  induction pre with
  | nil =>
    intro line i out hlen _ hcap
    have h0 := hcap 0 (Nat.le_refl _)
    simp only [List.take_zero, accumulated_from, List.foldl_nil, List.length_take] at h0
    have hi : i < line.length := by omega
    have hi2 : (i : Int) < length - 1 := by omega
    refine ⟨line.drop (i + 1), ?_, ?_⟩
    · rw [List.nil_append, kshell_readline_loop_cr length rest line i out hi2]
      simp [accumulated_from, echoed_from, List.set_eq_take_append_cons_drop, hi]
    · simp [accumulated_from]
      omega
  | cons c pre ih =>
    intro line i out hlen hcr hcap
    have h0 := hcap 0 (Nat.zero_le _)
    simp only [List.take_zero, accumulated_from, List.foldl_nil, List.length_take] at h0
    have hi : i < line.length := by omega
    have hi2 : (i : Int) < length - 1 := by omega
    have hc : c ≠ ASCII_CR := fun h => hcr (h ▸ List.mem_cons_self _ _)
    have hcr2 : ASCII_CR ∉ pre := fun h => hcr (List.mem_cons_of_mem _ h)
    have hcap2 : ∀ n ≤ pre.length,
        ((accumulated_from (edit_step (line.take i) c) (pre.take n)).length : Int)
          < length - 1 := by
      intro n hn
      have := hcap (n + 1) (by simpa using hn)
      simpa [accumulated_from_cons] using this
    rw [List.cons_append, kshell_readline_loop_step length c _ line i out hi2 hc,
      accumulated_from_cons]
    by_cases hbs : c = ASCII_BS
    · by_cases hpos : i > 0
      · have hacc : edit_step (line.take i) c = line.take (i - 1) := by
          simp [edit_step, hbs, List.dropLast_take hi]
        have hne : line.take i ≠ [] := by
          intro h
          have h3 := congrArg List.length h
          simp only [List.length_take, List.length_nil] at h3
          omega
        rw [hacc] at hcap2 ⊢
        obtain ⟨tail, h1, h2⟩ := ih line (i - 1) (out ++ [.putchar c]) hlen hcr2 hcap2
        refine ⟨tail, ?_, h2⟩
        rw [if_pos hbs, if_pos hpos, h1]
        simp [echoed_from, hbs, hne, List.dropLast_take hi]
      · have hi0 : i = 0 := by omega
        subst hi0
        have hacc : edit_step (line.take 0) c = line.take 0 := by
          simp [edit_step, hbs]
        rw [hacc] at hcap2 ⊢
        obtain ⟨tail, h1, h2⟩ := ih line 0 out hlen hcr2 hcap2
        refine ⟨tail, ?_, h2⟩
        rw [if_pos hbs, if_neg hpos, h1]
        simp [echoed_from, hbs]
    · by_cases hp : printable c = true
      · have hacc2 : (line.set i c).take (i + 1) = line.take i ++ [c] := by
          rw [List.set_eq_take_append_cons_drop, if_pos hi]
          have hl : (line.take i).length = i := by
            simp only [List.length_take]
            omega
          have happ : line.take i ++ c :: line.drop (i + 1)
              = (line.take i ++ [c]) ++ line.drop (i + 1) := by simp
          rw [happ]
          apply List.take_left'
          simp [hl]
        have hacc : edit_step (line.take i) c = (line.set i c).take (i + 1) := by
          rw [hacc2]
          simp [edit_step, hbs, hp]
        rw [hacc] at hcap2 ⊢
        obtain ⟨tail, h1, h2⟩ := ih (line.set i c) (i + 1) (out ++ [.putchar c])
          (by simpa using hlen) hcr2 hcap2
        refine ⟨tail, ?_, by simpa using h2⟩
        rw [if_neg hbs, if_pos hp, h1, hacc2]
        simp [echoed_from, hbs, hp]
      · have hacc : edit_step (line.take i) c = line.take i := by
          simp [edit_step, hbs, hp]
        rw [hacc] at hcap2 ⊢
        obtain ⟨tail, h1, h2⟩ := ih line i out hlen hcr2 hcap2
        refine ⟨tail, ?_, h2⟩
        rw [if_neg hbs, if_neg hp, h1]
        simp [echoed_from, hbs, hp]

/-- A printable character is not the NUL byte. -/
theorem printable_ne_NUL (c : Char) (h : printable c = true) : c ≠ NUL := by
  intro hc
  subst hc
  exact absurd h (by decide)

/-- The content accumulated by the spec holds no NUL byte when it started
without one. -/
theorem accumulated_from_no_NUL (cs : List Char) :
    ∀ acc : List Char, NUL ∉ acc → NUL ∉ accumulated_from acc cs := by
  induction cs with
  | nil => intro acc h; simpa [accumulated_from] using h
  | cons c cs ih =>
    intro acc h
    rw [accumulated_from_cons]
    apply ih
    unfold edit_step
    split
    · exact fun hm => h (List.dropLast_subset _ hm)
    · split
      · rename_i hp
        intro hm
        rcases List.mem_append.mp hm with hm | hm
        · exact h hm
        · exact printable_ne_NUL c hp (List.mem_singleton.mp hm).symm
      · exact h

/-- The C string of a buffer that starts with a text free of NUL followed by
a NUL is that text. -/
theorem c_string_append_NUL (text tail : List Char) (h : NUL ∉ text) :
    c_string (text ++ NUL :: tail) = text := by
  unfold c_string
  rw [List.takeWhile_append_of_pos]
  · simp
  · intro a ha
    have : a ≠ NUL := fun e => h (e ▸ ha)
    simpa using this

/-- `kshell_readline` on a completed line, in the form the shell loop needs:
the value 1, the world afterwards and the C string left in the buffer. -/
theorem kshell_readline_line (line pre rest : List Char) (length : Int) (w : World)
    (hbuf : length ≤ line.length) (hin : w.input = pre ++ ASCII_CR :: rest)
    (hcr : ASCII_CR ∉ pre)
    (hcap : ∀ n ≤ pre.length,
      ((accumulated_from [] (pre.take n)).length : Int) < length - 1) :
    ∃ line1,
      kshell_readline line length w = some (1, line1,
        { w with input := rest,
                 trace := w.trace ++ echoed_from [] pre ++ [.printf "\n"] }) ∧
      c_string line1 = accumulated_from [] pre := by
  obtain ⟨tail, h1, _⟩ := kshell_readline_loop_complete length rest pre line 0 w.trace hbuf hcr
    (by simpa using hcap)
  simp only [List.take_zero] at h1
  exact ⟨accumulated_from [] pre ++ NUL :: tail, by simp [kshell_readline, hin, h1],
    c_string_append_NUL _ _ (accumulated_from_no_NUL pre [] (by simp))⟩

/-- C5: on keystrokes `pre` without carriage return followed by a carriage
return, the accumulated count staying below `length - 1` after every prefix of
`pre`, `kshell_readline` returns 1, has consumed the keystrokes up to and
including the carriage return, and leaves in `line` the NUL-terminated string
obtained by folding the editing step of the spec over `pre` (a printable
character appended, a backspace removing the last character if there is one,
every other code ignored); the console shows the echo of the spec (nothing for
a backspace at position zero) followed by a newline. `pre` may be empty and
the string may be empty. -/
theorem kshell_readline_complete (line pre rest : List Char) (length : Int) (w : World)
    (hbuf : length ≤ line.length) (hin : w.input = pre ++ ASCII_CR :: rest)
    (hcr : ASCII_CR ∉ pre)
    (hcap : ∀ n ≤ pre.length,
      ((accumulated_from [] (pre.take n)).length : Int) < length - 1) :
    ∃ line1,
      kshell_readline line length w = some (1, line1,
        { w with input := rest,
                 trace := w.trace ++ echoed_from [] pre ++ [.printf "\n"] }) ∧
      line1.length = line.length ∧
      c_string line1 = accumulated_from [] pre ∧
      line1[(accumulated_from [] pre).length]? = some NUL := by
  obtain ⟨tail, h1, h2⟩ := kshell_readline_loop_complete length rest pre line 0 w.trace hbuf hcr
    (by simpa using hcap)
  simp only [List.take_zero] at h1 h2
  refine ⟨accumulated_from [] pre ++ NUL :: tail, ?_, h2, ?_, ?_⟩
  · simp [kshell_readline, hin, h1]
  · exact c_string_append_NUL _ _ (accumulated_from_no_NUL pre [] (by simp))
  · rw [List.getElem?_append_right (Nat.le_refl _)]
    simp

/-- C5, instance: the keystrokes backspace, `l`, `x`, backspace, `s`, a bell
code and carriage return, typed into a buffer of 8 bytes, give the line
`ls`. -/
theorem kshell_readline_complete_witness :
    ∃ line1,
      kshell_readline (List.replicate 8 'z') 8
          { world0 with input := [ASCII_BS, 'l', 'x', ASCII_BS, 's', Char.ofNat 7, ASCII_CR] }
        = some (1, line1,
            { world0 with
                input := [],
                trace := [.putchar 'l', .putchar 'x', .putchar ASCII_BS, .putchar 's',
                  .printf "\n"] }) ∧
      line1.length = 8 ∧ c_string line1 = ['l', 's'] ∧ line1[2]? = some NUL :=
  kshell_readline_complete (List.replicate 8 'z')
    [ASCII_BS, 'l', 'x', ASCII_BS, 's', Char.ofNat 7] [] 8
    { world0 with input := [ASCII_BS, 'l', 'x', ASCII_BS, 's', Char.ofNat 7, ASCII_CR] }
    (by decide) rfl (by decide) (by decide)

/-- Pieces of a line between spaces: the piece up to the first space, then the
pieces of what follows that space. -/
theorem splitOn_space_eq (s : List Char) :
    s.splitOn ' ' = s.takeWhile (fun c => c ≠ ' ') ::
      (match s.dropWhile (fun c => c ≠ ' ') with
       | [] => []
       | _ :: tl => tl.splitOn ' ') := by
  induction s with
  | nil => simp [List.splitOn, List.splitOnP_nil]
  | cons c s ih =>
    unfold List.splitOn at ih ⊢
    rw [List.splitOnP_cons]
    by_cases hc : c = ' '
    · subst hc
      simp
    · rw [ih]
      simp [hc, List.modifyHead]

/-- Leading spaces do not change the maximal runs. -/
theorem maximal_runs_dropWhile (s : List Char) :
    maximal_runs (s.dropWhile (fun c => c ∈ [' '])) = maximal_runs s := by
  induction s with
  | nil => rfl
  | cons c s ih =>
    by_cases hc : c = ' '
    · subst hc
      have : maximal_runs (' ' :: s) = maximal_runs s := by
        simp [maximal_runs, List.splitOn, List.splitOnP_cons]
      rw [this, ← ih]
      simp [List.dropWhile_cons]
    · simp [List.dropWhile_cons, hc]

/-- The text `strtok` remembers is never longer than the text it scanned, and
is shorter when a token was returned. -/
theorem strtok_rest_length (delim s : List Char) :
    (strtok delim s).2.length ≤ s.length ∧
    ((strtok delim s).1 ≠ none → (strtok delim s).2.length < s.length) := by
  have h1 : (s.dropWhile (fun c => decide (c ∈ delim))).length ≤ s.length :=
    (List.dropWhile_sublist _).length_le
  have hst : strtok delim s =
      if s.dropWhile (fun c => decide (c ∈ delim)) = [] then (none, [])
      else (some ((s.dropWhile (fun c => decide (c ∈ delim))).takeWhile
              (fun c => decide (c ∉ delim))),
            ((s.dropWhile (fun c => decide (c ∈ delim))).dropWhile
              (fun c => decide (c ∉ delim))).tail) := rfl
  rw [hst]
  by_cases h : s.dropWhile (fun c => decide (c ∈ delim)) = []
  · rw [if_pos h]
    simp
  · rw [if_neg h]
    obtain ⟨a, l, hal⟩ := List.exists_cons_of_ne_nil h
    have ha : ¬ (a ∈ delim) := by
      have h2 := List.head?_dropWhile_not (fun c => decide (c ∈ delim)) s
      rw [hal] at h2
      simpa using h2
    rw [hal] at h1 ⊢
    have h3 : ((a :: l).dropWhile (fun c => decide (c ∉ delim)))
        = l.dropWhile (fun c => decide (c ∉ delim)) := by
      rw [List.dropWhile_cons]
      simp [ha]
    have h4 : (l.dropWhile (fun c => decide (c ∉ delim))).length ≤ l.length :=
      (List.dropWhile_sublist _).length_le
    rw [h3]
    simp only [List.length_tail, List.length_cons] at h1 ⊢
    omega

/-- An empty line has no maximal run. -/
theorem maximal_runs_nil : maximal_runs [] = [] := by
  simp [maximal_runs, List.splitOn, List.splitOnP_nil]

/-- What `strtok` returns, in terms of the maximal runs: null when there is
none, otherwise the first run, the rest holding the others. -/
theorem strtok_maximal_runs (s : List Char) :
    ((strtok [' '] s).1 = none ∧ maximal_runs s = []) ∨
    (∃ t, (strtok [' '] s).1 = some t ∧
      maximal_runs s = t :: maximal_runs (strtok [' '] s).2) := by
  have hst : strtok [' '] s =
      if s.dropWhile (fun c => decide (c ∈ [' '])) = [] then (none, [])
      else (some ((s.dropWhile (fun c => decide (c ∈ [' ']))).takeWhile
              (fun c => decide (c ∉ [' ']))),
            ((s.dropWhile (fun c => decide (c ∈ [' ']))).dropWhile
              (fun c => decide (c ∉ [' ']))).tail) := rfl
  rw [hst, ← maximal_runs_dropWhile s]
  by_cases h : s.dropWhile (fun c => decide (c ∈ [' '])) = []
  · left
    rw [if_pos h, h]
    exact ⟨rfl, maximal_runs_nil⟩
  · right
    rw [if_neg h]
    obtain ⟨a, l, hal⟩ := List.exists_cons_of_ne_nil h
    have ha : a ≠ ' ' := by
      have h2 := List.head?_dropWhile_not (fun c => decide (c ∈ [' '])) s
      rw [hal] at h2
      simpa using h2
    refine ⟨_, rfl, ?_⟩
    rw [hal]
    have hp : (fun c : Char => decide (c ∉ [' '])) = (fun c => decide (c ≠ ' ')) := by
      funext c
      simp
    rw [hp]
    conv_lhs => rw [maximal_runs, splitOn_space_eq]
    have hne : (a :: l).takeWhile (fun c => decide (c ≠ ' ')) ≠ [] := by
      simp [List.takeWhile_cons, ha]
    rw [List.filter_cons_of_pos (by simpa using hne)]
    congr 1
    cases hd : (a :: l).dropWhile (fun c => decide (c ≠ ' ')) with
    | nil => simp [maximal_runs_nil]
    | cons b tl => simp [maximal_runs]

/-- The tokenizing loop in terms of the maximal runs of the remembered text:
it stores them one by one at the next indices, then a null pointer. -/
theorem tokenize_loop_maximal_runs :
    ∀ (n : Nat) (rest : List Char) (argc : Nat) (t : List Char)
      (writes : List (Nat × Option (List Char))), rest.length ≤ n →
      tokenize_loop rest argc (some t) writes =
        (argc + 1 + (maximal_runs rest).length,
          writes ++ argv_stores (argc + 1) (maximal_runs rest)) := by
  intro n
  induction n with
  | zero =>
    intro rest argc t writes hn
    have hr : rest = [] := List.length_eq_zero.mp (Nat.le_zero.mp hn)
    subst hr
    rw [tokenize_loop]
    have h1 : strtok [' '] [] = (none, []) := by simp [strtok]
    rw [h1, tokenize_loop]
    simp [maximal_runs_nil, argv_stores]
  | succ n ih =>
    intro rest argc t writes hn
    rw [tokenize_loop]
    rcases strtok_maximal_runs rest with ⟨h1, h2⟩ | ⟨t1, h1, h2⟩
    · rw [h1, tokenize_loop, h2]
      simp [argv_stores]
    · have hlt : (strtok [' '] rest).2.length < rest.length :=
        (strtok_rest_length [' '] rest).2 (by simp [h1])
      rw [h1, ih _ _ _ _ (by omega), h2]
      simp [argv_stores]
      omega

/-- The stores of `argv_stores` hold exactly the given tokens. -/
theorem stored_tokens_argv_stores (ts : List (List Char)) :
    ∀ start, stored_tokens (argv_stores start ts) = ts := by
  induction ts with
  | nil => intro start; simp [stored_tokens, argv_stores]
  | cons t ts ih =>
    intro start
    have := ih (start + 1)
    simp only [stored_tokens] at this
    simp [stored_tokens, argv_stores, this]

/-- The tokenizing statements of `kshell_launch` store the maximal runs of the
line at the indices 0, 1, ... and a null pointer after them; `argc` is their
number. -/
theorem kshell_tokenize_eq (line : List Char) :
    kshell_tokenize line =
      ((maximal_runs line).length, argv_stores 0 (maximal_runs line)) := by
  unfold kshell_tokenize
  rcases strtok_maximal_runs line with ⟨h1, h2⟩ | ⟨t, h1, h2⟩
  · rw [h1, tokenize_loop, h2]
    simp [argv_stores]
  · rw [h1, tokenize_loop_maximal_runs _ _ _ _ _ (Nat.le_refl _), h2]
    simp [argv_stores]
    omega

/-- No piece of a line cut at its spaces holds a space. -/
theorem splitOn_space_no_space :
    ∀ (n : Nat) (s : List Char), s.length ≤ n → ∀ t ∈ s.splitOn ' ', ' ' ∉ t := by
  intro n
  induction n with
  | zero =>
    intro s hs t ht
    have hr : s = [] := List.length_eq_zero.mp (Nat.le_zero.mp hs)
    subst hr
    simp [List.splitOn, List.splitOnP_nil] at ht
    simp [ht]
  | succ n ih =>
    intro s hs t ht
    rw [splitOn_space_eq] at ht
    rcases List.mem_cons.mp ht with rfl | ht
    · intro hm
      have := List.mem_takeWhile_imp hm
      simp at this
    · cases hd : s.dropWhile (fun c => decide (c ≠ ' ')) with
      | nil =>
        rw [hd] at ht
        exact absurd ht (List.not_mem_nil _)
      | cons b tl =>
        rw [hd] at ht
        have hlen : tl.length ≤ n := by
          have h1 := (List.dropWhile_sublist (fun c => decide (c ≠ ' ')) (l := s)).length_le
          rw [hd] at h1
          simp only [List.length_cons] at h1
          omega
        exact ih tl hlen t ht

/-- A line made of spaces only has no maximal run. -/
theorem maximal_runs_all_space (s : List Char) (h : ∀ c ∈ s, c = ' ') :
    maximal_runs s = [] := by
  induction s with
  | nil => exact maximal_runs_nil
  | cons c s ih =>
    have hc : c = ' ' := h c (List.mem_cons_self _ _)
    subst hc
    have : maximal_runs (' ' :: s) = maximal_runs s := by
      simp [maximal_runs, List.splitOn, List.splitOnP_cons]
    rw [this]
    exact ih (fun c hc => h c (List.mem_cons_of_mem _ hc))

/-- The indices of the stores of `argv_stores`: every index from `start` to
`start` plus the number of tokens, the last one for the null pointer. -/
theorem argv_stores_indices (ts : List (List Char)) :
    ∀ start, (argv_stores start ts).map Prod.fst = List.range' start (ts.length + 1) ∧
      (start + ts.length, none) ∈ argv_stores start ts := by
  induction ts with
  | nil => intro start; simp [argv_stores]
  | cons t ts ih =>
    intro start
    obtain ⟨h1, h2⟩ := ih (start + 1)
    refine ⟨?_, ?_⟩
    · simp [argv_stores, h1, List.range'_succ]
    · rw [argv_stores]
      apply List.mem_cons_of_mem
      have h3 : start + (t :: ts).length = start + 1 + ts.length := by
        simp only [List.length_cons]
        omega
      rw [h3]
      exact h2

/-- The stores of the tokenizing loop all fall inside `argv` exactly when
there are fewer tokens than `argv` has entries: the null pointer after the
last token needs an entry too. -/
theorem argv_stores_in_bounds (ts : List (List Char)) :
    (∀ store ∈ argv_stores 0 ts, store.1 < ARGV_CAPACITY) ↔ ts.length < ARGV_CAPACITY := by
  obtain ⟨h1, h2⟩ := argv_stores_indices ts 0
  constructor
  · intro h
    have := h _ h2
    simpa using this
  · intro h store hs
    have hm : store.1 ∈ (argv_stores 0 ts).map Prod.fst := List.mem_map_of_mem _ hs
    rw [h1, List.mem_range'] at hm
    obtain ⟨i, hi, he⟩ := hm
    omega

/-- One turn of the shell loop on a completed line with fewer tokens than
`argv` has entries: the prompt, the echo, and then `kshell_execute` on the
maximal runs of the line if there is one, nothing otherwise. -/
theorem kshell_launch_turn_complete (env : Env) (buf pre rest : List Char) (w : World)
    (hbuf : (LINE_CAPACITY : Int) ≤ buf.length) (hin : w.input = pre ++ ASCII_CR :: rest)
    (hcr : ASCII_CR ∉ pre)
    (hcap : ∀ n ≤ pre.length,
      ((accumulated_from [] (pre.take n)).length : Int) < (LINE_CAPACITY : Int) - 1)
    (hbound : (maximal_runs (accumulated_from [] pre)).length < ARGV_CAPACITY) :
    kshell_launch_turn env buf w = .completed
      (if maximal_runs (accumulated_from [] pre) = [] then
        { world := { w with input := rest,
                            trace := w.trace ++ prompt ++ echoed_from [] pre ++ [.printf "\n"] },
          executed := none }
      else
        { world := (kshell_execute env ((maximal_runs (accumulated_from [] pre)).map String.mk)
            { w with input := rest,
                     trace := w.trace ++ prompt ++ echoed_from [] pre ++ [.printf "\n"] }).2,
          executed := some ((maximal_runs (accumulated_from [] pre)).map String.mk) }) := by
  obtain ⟨line1, h1, h3⟩ := kshell_readline_line buf pre rest LINE_CAPACITY
    ((w.printf "\n").printf "root@Doors: /core/NexShell# ") hbuf
    (by simpa [World.printf, World.emit] using hin) hcr hcap
  unfold kshell_launch_turn
  simp only [h1, h3, kshell_tokenize_eq, stored_tokens_argv_stores]
  rw [if_pos ((argv_stores_in_bounds _).mpr hbound)]
  by_cases hr : maximal_runs (accumulated_from [] pre) = []
  · simp [hr, World.printf, World.emit, prompt]
  · have hpos : (maximal_runs (accumulated_from [] pre)).length > 0 :=
      List.length_pos.mpr hr
    simp [hr, hpos, World.printf, World.emit, prompt]

/-- One turn of the shell loop on a completed line with at least as many
tokens as `argv` has entries: a store of the tokenizing loop falls outside
the array. -/
theorem kshell_launch_turn_overflow (env : Env) (buf pre rest : List Char) (w : World)
    (hbuf : (LINE_CAPACITY : Int) ≤ buf.length) (hin : w.input = pre ++ ASCII_CR :: rest)
    (hcr : ASCII_CR ∉ pre)
    (hcap : ∀ n ≤ pre.length,
      ((accumulated_from [] (pre.take n)).length : Int) < (LINE_CAPACITY : Int) - 1)
    (hmany : ARGV_CAPACITY ≤ (maximal_runs (accumulated_from [] pre)).length) :
    kshell_launch_turn env buf w = .argv_overflow := by
  obtain ⟨line1, h1, h3⟩ := kshell_readline_line buf pre rest LINE_CAPACITY
    ((w.printf "\n").printf "root@Doors: /core/NexShell# ") hbuf
    (by simpa [World.printf, World.emit] using hin) hcr hcap
  unfold kshell_launch_turn
  simp only [h1, h3, kshell_tokenize_eq, stored_tokens_argv_stores]
  rw [if_neg (fun h => absurd ((argv_stores_in_bounds _).mp h) (by omega))]

/-- C6, as amended: for every line with fewer than 100 maximal runs of
non-space characters, the tokenizing loop of `kshell_launch` stores exactly
those runs, from left to right, every store (the null pointer after the last
token included) falling inside `argv`: the line cut at every space gives
pieces without space, and the tokens are the non-empty pieces, in order;
`argc` is their number; every token is non-empty and holds no space; the line
"a  b c" gives the tokens "a", "b", "c"; an empty or all-space line gives
`argc = 0` and no token; and in a turn of the shell loop that reads such a
line, completed by a carriage return, `kshell_execute` is called on the tokens
when there is one and is not called when there is none. -/
theorem kshell_launch_tokenizes (line : List Char)
    (hbound : (maximal_runs line).length < ARGV_CAPACITY) :
    (∃ pieces, [' '].intercalate pieces = line ∧ (∀ p ∈ pieces, ' ' ∉ p) ∧
      stored_tokens (kshell_tokenize line).2 = pieces.filter (fun t => t ≠ [])) ∧
    stored_tokens (kshell_tokenize line).2 = maximal_runs line ∧
    (kshell_tokenize line).1 = (maximal_runs line).length ∧
    (∀ store ∈ (kshell_tokenize line).2, store.1 < ARGV_CAPACITY) ∧
    (∀ t ∈ stored_tokens (kshell_tokenize line).2, t ≠ [] ∧ ' ' ∉ t) ∧
    (stored_tokens (kshell_tokenize "a  b c".toList).2).map String.mk = ["a", "b", "c"] ∧
    ((∀ c ∈ line, c = ' ') →
      (kshell_tokenize line).1 = 0 ∧ stored_tokens (kshell_tokenize line).2 = []) ∧
    (∀ (env : Env) (buf pre rest : List Char) (w : World),
      (LINE_CAPACITY : Int) ≤ buf.length → w.input = pre ++ ASCII_CR :: rest →
      ASCII_CR ∉ pre →
      (∀ n ≤ pre.length,
        ((accumulated_from [] (pre.take n)).length : Int) < (LINE_CAPACITY : Int) - 1) →
      accumulated_from [] pre = line →
      kshell_launch_turn env buf w = .completed
        (if maximal_runs line = [] then
          { world := { w with input := rest,
                              trace := w.trace ++ prompt ++ echoed_from [] pre
                                ++ [.printf "\n"] },
            executed := none }
        else
          { world := (kshell_execute env ((maximal_runs line).map String.mk)
              { w with input := rest,
                       trace := w.trace ++ prompt ++ echoed_from [] pre
                         ++ [.printf "\n"] }).2,
            executed := some ((maximal_runs line).map String.mk) })) := by
  have htok : ∀ l, stored_tokens (kshell_tokenize l).2 = maximal_runs l := by
    intro l
    rw [kshell_tokenize_eq]
    exact stored_tokens_argv_stores _ 0
  have hargc : ∀ l, (kshell_tokenize l).1 = (maximal_runs l).length := by
    intro l
    rw [kshell_tokenize_eq]
  refine ⟨⟨line.splitOn ' ', List.intercalate_splitOn line ' ',
      splitOn_space_no_space _ line (Nat.le_refl _), htok line⟩, htok line, hargc line,
    ?_, ?_, ?_, ?_, ?_⟩
  · rw [kshell_tokenize_eq]
    exact (argv_stores_in_bounds _).mpr hbound
  · intro t ht
    rw [htok] at ht
    have hm := List.mem_filter.mp ht
    exact ⟨by simpa using hm.2, splitOn_space_no_space _ line (Nat.le_refl _) t hm.1⟩
  · rw [htok]
    decide
  · intro hsp
    rw [hargc, htok, maximal_runs_all_space line hsp]
    exact ⟨rfl, rfl⟩
  · intro env buf pre rest w hbuf hin hcr hcap hline
    subst hline
    exact kshell_launch_turn_complete env buf pre rest w hbuf hin hcr hcap hbound

/-- C6, as amended, instance: a turn of the shell loop that reads `a  b c` and
a carriage return calls `kshell_execute` on the three tokens `a`, `b`, `c`;
a turn that reads three spaces and a carriage return shows the prompt and the
echo and does not call `kshell_execute`. -/
theorem kshell_launch_tokenizes_witness :
    kshell_launch_turn env_ok (List.replicate 1024 NUL)
      { world0 with input := ['a', ' ', ' ', 'b', ' ', 'c', ASCII_CR] } = .completed
        { world := (kshell_execute env_ok ["a", "b", "c"]
            { world0 with
                trace := prompt ++ echoed_from [] ['a', ' ', ' ', 'b', ' ', 'c']
                  ++ [.printf "\n"] }).2,
          executed := some ["a", "b", "c"] } ∧
    kshell_launch_turn env_ok (List.replicate 1024 NUL)
      { world0 with input := [' ', ' ', ' ', ASCII_CR] } = .completed
        { world := { world0 with
                       trace := prompt ++ echoed_from [] [' ', ' ', ' '] ++ [.printf "\n"] },
          executed := none } := by
  constructor
  · have h := (kshell_launch_tokenizes ['a', ' ', ' ', 'b', ' ', 'c'] (by decide)).2.2.2.2.2.2.2
      env_ok (List.replicate 1024 NUL) ['a', ' ', ' ', 'b', ' ', 'c'] []
      { world0 with input := ['a', ' ', ' ', 'b', ' ', 'c', ASCII_CR] }
      (by rw [List.length_replicate]; decide) rfl (by decide) (by decide) (by decide)
    have hr : maximal_runs ['a', ' ', ' ', 'b', ' ', 'c'] = [['a'], ['b'], ['c']] := by decide
    rw [hr, if_neg (by decide)] at h
    exact h
  · have h := (kshell_launch_tokenizes [' ', ' ', ' '] (by decide)).2.2.2.2.2.2.2
      env_ok (List.replicate 1024 NUL) [' ', ' ', ' '] []
      { world0 with input := [' ', ' ', ' ', ASCII_CR] }
      (by rw [List.length_replicate]; decide) rfl (by decide) (by decide) (by decide)
    have hr : maximal_runs [' ', ' ', ' '] = [] := by decide
    rw [hr, if_pos rfl] at h
    exact h

/-- A printable character is neither a carriage return nor a backspace. -/
theorem printable_ne_control (c : Char) (h : printable c = true) :
    c ≠ ASCII_CR ∧ c ≠ ASCII_BS := by
  constructor
  · intro hc
    subst hc
    exact absurd h (by decide)
  · intro hc
    subst hc
    exact absurd h (by decide)

/-- The loop of `kshell_readline` on a run of printable keystrokes that fits
below `length - 1`: they are stored one after the other and echoed. -/
theorem kshell_readline_loop_printables (length : Int) (rest : List Char) :
    ∀ (cs line : List Char) (i : Nat) (out : List Event),
      (∀ c ∈ cs, printable c = true) → ((i + cs.length : Nat) : Int) ≤ length - 1 →
      i + cs.length ≤ line.length →
      kshell_readline_loop length (cs ++ rest) line i out =
        kshell_readline_loop length rest (line.take i ++ cs ++ line.drop (i + cs.length))
          (i + cs.length) (out ++ cs.map Event.putchar) := by
  intro cs
  induction cs with
  | nil =>
    intro line i out _ _ _
    simp
  | cons c cs ih =>
    intro line i out hp hcap hlen
    have hpc := hp c (List.mem_cons_self _ _)
    obtain ⟨hcr, hbs⟩ := printable_ne_control c hpc
    simp only [List.length_cons] at hcap hlen
    have hi : (i : Int) < length - 1 := by omega
    have hil : i < line.length := by omega
    rw [List.cons_append, kshell_readline_loop_step length c _ line i out hi hcr,
      if_neg hbs, if_pos hpc,
      ih (line.set i c) (i + 1) (out ++ [Event.putchar c])
        (fun x hx => hp x (List.mem_cons_of_mem _ hx)) (by omega)
        (by rw [List.length_set]; omega)]
    have h1 : (line.set i c).take (i + 1) = line.take i ++ [c] := by
      rw [List.set_eq_take_append_cons_drop, if_pos hil]
      have hl : (line.take i).length = i := by
        simp only [List.length_take]
        omega
      have happ : line.take i ++ c :: line.drop (i + 1)
          = (line.take i ++ [c]) ++ line.drop (i + 1) := by simp
      rw [happ]
      apply List.take_left'
      simp [hl]
    have h2 : (line.set i c).drop (i + 1 + cs.length) = line.drop (i + 1 + cs.length) :=
      List.drop_set_of_lt c line (by omega)
    rw [h1, h2]
    have h3 : i + (cs.length + 1) = i + 1 + cs.length := by omega
    simp [h3]

/-- A word followed by a space and more text: the word is the first maximal
run, the others are those of the text. -/
theorem maximal_runs_word_space (s tl : List Char) (hne : s ≠ []) (h : ∀ c ∈ s, c ≠ ' ') :
    maximal_runs (s ++ ' ' :: tl) = s :: maximal_runs tl := by
  have h1 : (s ++ ' ' :: tl).takeWhile (fun c => decide (c ≠ ' ')) = s := by
    rw [List.takeWhile_append_of_pos (fun x hx => by simpa using h x hx)]
    simp
  have h2 : (s ++ ' ' :: tl).dropWhile (fun c => decide (c ≠ ' ')) = ' ' :: tl := by
    rw [List.dropWhile_append_of_pos (fun x hx => by simpa using h x hx)]
    simp
  rw [maximal_runs, splitOn_space_eq, h1, h2]
  simp [hne, maximal_runs]

/-- The loop of `kshell_readline` entered at index `i` with the content
`line.take i`, on keystrokes `pre` without carriage return during which the
accumulated count reaches `length - 1`: it returns 0. -/
theorem kshell_readline_loop_overflow (length : Int) (rest : List Char) :
    ∀ (pre line : List Char) (i : Nat) (out : List Event),
      length ≤ line.length → i ≤ line.length → ASCII_CR ∉ pre →
      length - 1 ≤ ((accumulated_from (line.take i) pre).length : Int) →
      ∃ line1 input1 out1,
        kshell_readline_loop length (pre ++ rest) line i out = some (0, line1, input1, out1) := by
  intro pre
  induction pre with
  | nil =>
    intro line i out _ hi _ hfull
    have hnot : ¬ (i : Int) < length - 1 := by
      simp only [accumulated_from, List.foldl_nil, List.length_take] at hfull
      omega
    exact ⟨_, _, _, kshell_readline_loop_full length _ line i out hnot⟩
  | cons c pre ih =>
    intro line i out hlen hi hcr hfull
    by_cases hlt : (i : Int) < length - 1
    · have hil : i < line.length := by omega
      have hc : c ≠ ASCII_CR := fun h => hcr (h ▸ List.mem_cons_self _ _)
      have hcr2 : ASCII_CR ∉ pre := fun h => hcr (List.mem_cons_of_mem _ h)
      rw [accumulated_from_cons] at hfull
      rw [List.cons_append, kshell_readline_loop_step length c _ line i out hlt hc]
      by_cases hbs : c = ASCII_BS
      · by_cases hpos : i > 0
        · have hacc : edit_step (line.take i) c = line.take (i - 1) := by
            simp [edit_step, hbs, List.dropLast_take hil]
          rw [hacc] at hfull
          rw [if_pos hbs, if_pos hpos]
          exact ih line (i - 1) _ hlen (by omega) hcr2 hfull
        · have hi0 : i = 0 := by omega
          subst hi0
          have hacc : edit_step (line.take 0) c = line.take 0 := by
            simp [edit_step, hbs]
          rw [hacc] at hfull
          rw [if_pos hbs, if_neg hpos]
          exact ih line 0 _ hlen hi hcr2 hfull
      · by_cases hp : printable c = true
        · have hacc : edit_step (line.take i) c = (line.set i c).take (i + 1) := by
            have hacc2 : (line.set i c).take (i + 1) = line.take i ++ [c] := by
              rw [List.set_eq_take_append_cons_drop, if_pos hil]
              have hl : (line.take i).length = i := by
                simp only [List.length_take]
                omega
              have happ : line.take i ++ c :: line.drop (i + 1)
                  = (line.take i ++ [c]) ++ line.drop (i + 1) := by simp
              rw [happ]
              apply List.take_left'
              simp [hl]
            rw [hacc2]
            simp [edit_step, hbs, hp]
          rw [hacc] at hfull
          rw [if_neg hbs, if_pos hp]
          exact ih (line.set i c) (i + 1) _ (by simpa using hlen)
            (by rw [List.length_set]; omega) hcr2 hfull
        · have hacc : edit_step (line.take i) c = line.take i := by
            simp [edit_step, hbs, hp]
          rw [hacc] at hfull
          rw [if_neg hbs, if_neg hp]
          exact ih line i _ hlen hi hcr2 hfull
    · exact ⟨_, _, _, kshell_readline_loop_full length _ line i out hlt⟩

/-- `kshell_readline` reports incomplete input: when the keystrokes `pre`
hold no carriage return and bring the accumulated count to `length - 1`, it
returns 0, whatever follows them. -/
theorem kshell_readline_incomplete (line pre rest : List Char) (length : Int) (w : World)
    (hbuf : length ≤ line.length) (hin : w.input = pre ++ rest) (hcr : ASCII_CR ∉ pre)
    (hfull : length - 1 ≤ ((accumulated_from [] pre).length : Int)) :
    ∃ line1 w1, kshell_readline line length w = some (0, line1, w1) := by
  obtain ⟨line1, input1, out1, h⟩ := kshell_readline_loop_overflow length rest pre line 0
    w.trace hbuf (Nat.zero_le _) hcr (by simpa using hfull)
  exact ⟨line1, { w with input := input1, trace := out1 }, by simp [kshell_readline, hin, h]⟩

/-- The value of `sizeof(line)` in `kshell_launch`. -/
theorem LINE_CAPACITY_eq : ((LINE_CAPACITY : Nat) : Int) = 1024 := rfl

/-- `kshell_readline` on a buffer of 1024 bytes and 1023 printable keystrokes:
it stores them, leaves the last byte of the buffer as it was and returns 0. -/
theorem kshell_readline_full_buffer (buf keys rest : List Char) (w : World)
    (hbuf : buf.length = 1024) (hkeys : keys.length = 1023)
    (hp : ∀ c ∈ keys, printable c = true) (hin : w.input = keys ++ rest) :
    kshell_readline buf LINE_CAPACITY w = some (0, keys ++ buf.drop 1023,
      { w with input := rest, trace := w.trace ++ keys.map Event.putchar }) := by
  have h := kshell_readline_loop_printables LINE_CAPACITY rest keys buf 0 w.trace hp
    (by rw [LINE_CAPACITY_eq, hkeys]; decide) (by rw [hkeys, hbuf]; decide)
  have hfull : ¬ (((0 + keys.length : Nat) : Int) < (LINE_CAPACITY : Int) - 1) := by
    rw [LINE_CAPACITY_eq, hkeys]
    decide
  rw [kshell_readline_loop_full _ _ _ _ _ hfull, hkeys] at h
  unfold kshell_readline
  rw [hin, h]
  simp

/-- One turn of the shell loop on a buffer of 1024 bytes whose last byte is
NUL and 1023 printable keystrokes without carriage return: the buffer is
tokenized and, if it holds a token, `kshell_execute` is called. -/
theorem kshell_launch_turn_full_buffer (env : Env) (buf keys rest : List Char) (w : World)
    (hbuf : buf.length = 1024) (hlast : buf.drop 1023 = [NUL]) (hkeys : keys.length = 1023)
    (hp : ∀ c ∈ keys, printable c = true) (hin : w.input = keys ++ rest)
    (hrun : maximal_runs keys ≠ []) (hbound : (maximal_runs keys).length < ARGV_CAPACITY) :
    kshell_launch_turn env buf w = .completed
      { world := (kshell_execute env ((maximal_runs keys).map String.mk)
          { w with input := rest,
                   trace := w.trace ++ prompt ++ keys.map Event.putchar }).2,
        executed := some ((maximal_runs keys).map String.mk) } := by
  have hnul : NUL ∉ keys := fun hm => absurd (hp NUL hm) (by decide)
  have h1 := kshell_readline_full_buffer buf keys rest
    ((w.printf "\n").printf "root@Doors: /core/NexShell# ") hbuf hkeys hp
    (by simpa [World.printf, World.emit] using hin)
  have hpos : (maximal_runs keys).length > 0 := List.length_pos.mpr hrun
  unfold kshell_launch_turn
  simp only [h1, hlast, c_string_append_NUL keys [] hnul, kshell_tokenize_eq,
    stored_tokens_argv_stores]
  rw [if_pos ((argv_stores_in_bounds _).mpr hbound)]
  simp [hpos, World.printf, World.emit, prompt]

/-- C4, defect in the code: the keystrokes `reboot` and 1017
spaces, without carriage return, fill the 1024-byte buffer up to its last
byte. `kshell_readline` returns 0, yet the turn of the shell loop goes on,
tokenizes the buffer and calls `kshell_execute` on `reboot`, which reboots the
machine. -/
theorem kshell_launch_runs_incomplete_line (env : Env) :
    kshell_readline (List.replicate 1024 NUL) LINE_CAPACITY
        { world0 with input := held_space_keys, trace := prompt } =
      some (0, held_space_keys ++ [NUL],
        { world0 with input := [], trace := prompt ++ held_space_keys.map Event.putchar }) ∧
    kshell_launch_turn env (List.replicate 1024 NUL)
        { world0 with input := held_space_keys } =
      .completed
        { world := { world0 with
                       trace := prompt ++ held_space_keys.map Event.putchar ++ [.reboot],
                       machine := .rebooted },
          executed := some ["reboot"] } := by
  have hword : ∀ c ∈ "reboot".toList, printable c = true := by decide
  have hp : ∀ c ∈ held_space_keys, printable c = true := by
    intro c hc
    rcases List.mem_append.mp hc with h | h
    · exact hword c h
    · rw [List.eq_of_mem_replicate h]
      decide
  have hlen : held_space_keys.length = 1023 := by
    rw [held_space_keys, List.length_append, List.length_replicate]
    rfl
  have hbuf : (List.replicate 1024 NUL).length = 1024 := List.length_replicate _ _
  have hlast : (List.replicate 1024 NUL).drop 1023 = [NUL] := by
    rw [List.drop_replicate]
    rfl
  have hruns : maximal_runs held_space_keys = ["reboot".toList] := by
    have h1 : held_space_keys = "reboot".toList ++ ' ' :: List.replicate 1016 ' ' :=
      congrArg (fun t => "reboot".toList ++ t) (List.replicate_succ ' ' 1016)
    rw [h1, maximal_runs_word_space _ _ (by decide) (by decide),
      maximal_runs_all_space _ (fun c hc => List.eq_of_mem_replicate hc)]
  constructor
  · have h := kshell_readline_full_buffer (List.replicate 1024 NUL) held_space_keys []
      { world0 with input := held_space_keys, trace := prompt } hbuf hlen hp
      (List.append_nil _).symm
    rw [hlast] at h
    exact h
  · have h := kshell_launch_turn_full_buffer env (List.replicate 1024 NUL) held_space_keys []
      { world0 with input := held_space_keys } hbuf hlast hlen hp
      (List.append_nil _).symm (by rw [hruns]; exact List.cons_ne_nil _ _)
      (by rw [hruns]; decide)
    rw [h, hruns]
    simp [kshell_execute, World.emit, world0]

/-- The line of `n` words `a` has `n` maximal runs. -/
theorem maximal_runs_repeated_word (n : Nat) :
    maximal_runs (repeated_word n) = List.replicate n ['a'] := by
  induction n with
  | zero => exact maximal_runs_nil
  | succ n ih =>
    have h := maximal_runs_word_space ['a'] (repeated_word n) (by decide) (by decide)
    simp only [List.singleton_append] at h
    rw [repeated_word, h, ih, List.replicate_succ]

/-- Printable keystrokes are accumulated as they come. -/
theorem accumulated_from_printable (cs : List Char) :
    ∀ acc : List Char, (∀ c ∈ cs, printable c = true) → accumulated_from acc cs = acc ++ cs := by
  induction cs with
  | nil => intro acc _; simp [accumulated_from]
  | cons c cs ih =>
    intro acc h
    have hc := h c (List.mem_cons_self _ _)
    rw [accumulated_from_cons, ih _ (fun x hx => h x (List.mem_cons_of_mem _ hx))]
    simp [edit_step, (printable_ne_control c hc).2, hc]

/-- Every keystroke of the line of `n` words is printable. -/
theorem repeated_word_printable (n : Nat) : ∀ c ∈ repeated_word n, printable c = true := by
  induction n with
  | zero => simp [repeated_word]
  | succ n ih =>
    intro c hc
    simp only [repeated_word, List.mem_cons] at hc
    rcases hc with rfl | rfl | hc
    · decide
    · decide
    · exact ih c hc

/-- Length of the line of `n` words. -/
theorem repeated_word_length (n : Nat) : (repeated_word n).length = 2 * n := by
  induction n with
  | zero => rfl
  | succ n ih => simp [repeated_word, ih]; omega

/-- C7, defect in the code: the line of 100 words `a`, 200
characters long, is a line `kshell_readline` returns into the 1024-byte
buffer; the tokenizing loop finds 100 tokens, stores them at the indices 0 to
99 and stores the terminating null pointer at index 100, which is not below
the capacity 100 of `argv`. -/
theorem kshell_launch_argv_overflow :
    (∃ line1 w1, kshell_readline (List.replicate 1024 NUL) LINE_CAPACITY
        { world0 with input := repeated_word 100 ++ [ASCII_CR] } = some (1, line1, w1) ∧
      c_string line1 = repeated_word 100) ∧
    (kshell_tokenize (repeated_word 100)).1 = 100 ∧
    (kshell_tokenize (repeated_word 100)).2.map Prod.fst = List.range' 0 101 ∧
    (100, none) ∈ (kshell_tokenize (repeated_word 100)).2 ∧
    ¬ (100 < ARGV_CAPACITY) := by
  have hacc : ∀ n, accumulated_from [] ((repeated_word 100).take n) =
      (repeated_word 100).take n := by
    intro n
    rw [accumulated_from_printable _ []
      (fun c hc => repeated_word_printable 100 c (List.mem_of_mem_take hc))]
    rfl
  have hruns := maximal_runs_repeated_word 100
  have hidx := argv_stores_indices (maximal_runs (repeated_word 100)) 0
  rw [hruns, List.length_replicate] at hidx
  refine ⟨?_, ?_, ?_, ?_, by decide⟩
  · obtain ⟨line1, h1, h3⟩ := kshell_readline_line (List.replicate 1024 NUL)
      (repeated_word 100) [] LINE_CAPACITY
      { world0 with input := repeated_word 100 ++ [ASCII_CR] }
      (by rw [List.length_replicate]; decide) rfl
      (fun hm => absurd (repeated_word_printable 100 _ hm) (by decide))
      (by
        intro n _
        rw [hacc n, LINE_CAPACITY_eq, List.length_take, repeated_word_length]
        omega)
    refine ⟨line1, _, h1, ?_⟩
    rw [h3]
    have := hacc 200
    rw [List.take_of_length_le (by rw [repeated_word_length])] at this
    exact this
  · rw [kshell_tokenize_eq, hruns, List.length_replicate]
  · rw [kshell_tokenize_eq, hruns]
    exact hidx.1
  · rw [kshell_tokenize_eq, hruns]
    exact hidx.2

/-- The loop that kills the processes, entered at `pid` with `k` identifiers
left up to 100: it issues `process_kill` for each of them in ascending order
and nothing else. -/
theorem kill_loop_trace :
    ∀ (k pid : Nat) (w : World), pid + k = 101 →
      kill_loop pid w =
        { w with trace := w.trace ++
            (List.range' pid k).map (fun p : Nat => Event.process_kill (p : Int)) } := by
  intro k
  induction k with
  | zero =>
    intro pid w h
    rw [kill_loop, if_neg (by omega)]
    simp
  | succ k ih =>
    intro pid w h
    rw [kill_loop, if_pos (by omega), ih (pid + 1) _ (by omega)]
    simp [World.emit, List.range'_succ]

/-- C8: whatever the mount slot holds and whatever the platform does,
`shutdown_user` clears the screen, announces the power off, issues
`process_kill` once for each identifier 2, 3, ..., 100 in ascending order
with no wait in between, closes the mount slot exactly when it is populated,
leaves the slot empty, waits, writes the power-off value to the power port
and, when the machine is still on, reports the failure and halts. The machine
is never left running: no path returns, and none skips the termination or the
unmount step. -/
theorem shutdown_user_sequence (env : Env) (w : World) :
    shutdown_user env w =
      { w with
          stddir := none,
          trace := w.trace ++ [.printf "\x0c\n", .printf "Powering off... "]
            ++ (List.range' 2 99).map (fun p : Nat => Event.process_kill (p : Int))
            ++ (if w.stddir.isSome then [.sys_object_close KNO_STDDIR] else [])
            ++ [.busy_wait 400000000, .printf "Done\n", .busy_wait 400000000,
                .outw 0x604 0x2000]
            ++ (if env.power_off_works then []
                else [.printf "\x0c\n", .printf "System halted.\n",
                      .printf "The system could not be shut down via ACPI.\n", .halt]),
          machine := if env.power_off_works then .poweredOff else .halted } ∧
    (∀ pid : Nat, pid ∈ List.range' 2 99 ↔ 2 ≤ pid ∧ pid ≤ 100) ∧
    (List.range' 2 99).Pairwise (fun a b => a < b) ∧
    (shutdown_user env w).stddir = none ∧
    (shutdown_user env w).machine ≠ .running ∧
    (∀ pid, Event.process_wait_child pid ∉ (shutdown_user env w).trace.drop w.trace.length) := by
  have hmain : shutdown_user env w =
      { w with
          stddir := none,
          trace := w.trace ++ [.printf "\x0c\n", .printf "Powering off... "]
            ++ (List.range' 2 99).map (fun p : Nat => Event.process_kill (p : Int))
            ++ (if w.stddir.isSome then [.sys_object_close KNO_STDDIR] else [])
            ++ [.busy_wait 400000000, .printf "Done\n", .busy_wait 400000000,
                .outw 0x604 0x2000]
            ++ (if env.power_off_works then []
                else [.printf "\x0c\n", .printf "System halted.\n",
                      .printf "The system could not be shut down via ACPI.\n", .halt]),
          machine := if env.power_off_works then .poweredOff else .halted } := by
    simp only [shutdown_user, kill_loop_trace 99 2 _ rfl]
    cases hs : w.stddir <;> cases hp : env.power_off_works <;>
      simp [clear, World.printf, World.emit, sys_object_close, hs]
  refine ⟨hmain, ?_, ?_, ?_, ?_, ?_⟩
  · intro pid
    rw [List.mem_range']
    constructor
    · rintro ⟨i, hi, rfl⟩
      omega
    · intro h
      exact ⟨pid - 2, by omega, by omega⟩
  · exact List.pairwise_lt_range' 2 99
  · rw [hmain]
  · rw [hmain]
    cases env.power_off_works <;> simp
  · intro pid
    rw [hmain]
    cases w.stddir <;> cases env.power_off_works <;> simp

/-- C9, counterexample: `shutdown cowsay` without a message word prints the
usage text and returns -1, and `shutdown cowsay hi` with a failing allocator
prints the failure text and returns -1; in both cases no process is killed,
the power port is not written and the machine keeps running, so the shutdown
sequence is not invoked. -/
theorem kshell_execute_shutdown_refused :
    kshell_execute env_ok ["shutdown", "cowsay"] world0 =
      (some (-1), { world0 with trace := [.printf "Usage: shutdown cowsay <message>\n"] }) ∧
    kshell_execute env_no_memory ["shutdown", "cowsay", "hi"] world0 =
      (some (-1), { world0 with trace :=
        [.kmalloc 3, .printf "shutdown cowsay: memory allocation failed.\n"] }) ∧
    kshell_execute env_ok ["shutdown", "cowsay"] world0 ≠
      (none, shutdown_user env_ok world0) ∧
    (∀ w1, kshell_execute env_no_memory ["shutdown", "cowsay", "hi"] world0 ≠
      (none, shutdown_user env_no_memory w1)) := by
  refine ⟨?_, ?_, ?_, ?_⟩
  · simp [kshell_execute, execute_shutdown, World.printf, World.emit, world0]
  · simp [kshell_execute, execute_shutdown, World.printf, World.emit, world0, env_no_memory,
      total_len]
    rfl
  · simp [kshell_execute, execute_shutdown]
  · intro w1
    simp [kshell_execute, execute_shutdown, env_no_memory]

/-- The verb `shutdown` is dispatched to its branch. -/
theorem kshell_execute_shutdown_branch (env : Env) (args : List String) (w : World) :
    kshell_execute env ("shutdown" :: args) w = execute_shutdown env ("shutdown" :: args) w := by
  have h : ¬ ((("shutdown" :: args).length : Nat) : Int) < 1 := by
    simp only [List.length_cons, Nat.cast_add, Nat.cast_one]
    omega
  unfold kshell_execute
  rw [if_neg h]
  simp

/-- C9, as amended: for the verb `shutdown` with no further argument, and for
`shutdown cowsay` followed by at least one message word when the allocator
succeeds, `kshell_execute` does not return and runs `shutdown_user`; in the
second case the cow with the message is printed first and the sequence that
follows is that of `shutdown_user` on the world so reached. With no message
word, or when the allocator fails, it prints a message and returns -1. -/
theorem kshell_execute_shutdown (env : Env) (w : World) :
    kshell_execute env ["shutdown"] w = (none, shutdown_user env w) ∧
    (∀ (word : String) (words : List String),
      env.kmalloc (total_len (word :: words)) = true →
      kshell_execute env ("shutdown" :: "cowsay" :: word :: words) w =
        (none, shutdown_user env
          ((cowsay (join_words (word :: words))
            (w.emit (.kmalloc (total_len (word :: words))))).emit .kfree))) ∧
    (∀ (word : String) (words : List String),
      env.kmalloc (total_len (word :: words)) = false →
      kshell_execute env ("shutdown" :: "cowsay" :: word :: words) w =
        (some (-1), (w.emit (.kmalloc (total_len (word :: words)))).printf
          "shutdown cowsay: memory allocation failed.\n")) ∧
    kshell_execute env ["shutdown", "cowsay"] w =
      (some (-1), w.printf "Usage: shutdown cowsay <message>\n") := by
  have c1 : ∀ (word : String) (words : List String),
      ((("shutdown" :: "cowsay" :: word :: words).length : Nat) : Int) > 1 ∧
        ("shutdown" :: "cowsay" :: word :: words).getD 1 "" = "cowsay" := by
    intro word words
    refine ⟨?_, rfl⟩
    simp only [List.length_cons, Nat.cast_add, Nat.cast_one]
    omega
  have c2 : ∀ (word : String) (words : List String),
      ((("shutdown" :: "cowsay" :: word :: words).length : Nat) : Int) > 2 := by
    intro word words
    simp only [List.length_cons, Nat.cast_add, Nat.cast_one]
    omega
  refine ⟨?_, ?_, ?_, ?_⟩
  · rw [kshell_execute_shutdown_branch]
    simp [execute_shutdown]
  · intro word words h
    rw [kshell_execute_shutdown_branch]
    unfold execute_shutdown
    rw [if_pos (c1 word words), if_pos (c2 word words)]
    simp [h]
  · intro word words h
    rw [kshell_execute_shutdown_branch]
    unfold execute_shutdown
    rw [if_pos (c1 word words), if_pos (c2 word words)]
    simp [h]
  · rw [kshell_execute_shutdown_branch]
    simp [execute_shutdown]

/-- C9, as amended, instance: `shutdown cowsay bye` on a kernel whose allocator
succeeds runs the shutdown sequence after the cow. -/
theorem kshell_execute_shutdown_witness :
    kshell_execute env_ok ["shutdown", "cowsay", "bye"] world0 =
      (none, shutdown_user env_ok
        ((cowsay (join_words ["bye"]) (world0.emit (.kmalloc (total_len ["bye"])))).emit
          .kfree)) :=
  (kshell_execute_shutdown env_ok world0).2.1 "bye" [] rfl

/-- A verb outside the chain of tests of `kshell_execute` reaches the last
branch, which prints the "command not found" text. -/
theorem kshell_execute_not_found (env : Env) (cmd : String) (args : List String) (w : World)
    (h : cmd ∉ dispatched_verbs) :
    kshell_execute env (cmd :: args) w = (some 0, w.printf (not_found_text cmd)) := by
  have hlen : ¬ (((cmd :: args).length : Nat) : Int) < 1 := by
    simp only [List.length_cons, Nat.cast_add, Nat.cast_one]
    omega
  simp only [dispatched_verbs, List.mem_cons, List.mem_singleton, List.not_mem_nil, or_false,
    not_or] at h
  obtain ⟨h1, h2, h3, h4, h5, h6, h7, h8, h9, h10, h11, h12, h13, h14, h15, h16⟩ := h
  unfold kshell_execute
  rw [if_neg hlen]
  simp [h1, h2, h3, h4, h5, h6, h7, h8, h9, h10, h11, h12, h13, h14, h15, h16]

set_option maxRecDepth 100000 in
/-- Every verb of the chain of tests other than `mkdir` occurs in the output
of `help` without argument. -/
theorem help_lists_other_verbs :
    ∀ v ∈ dispatched_verbs, v ≠ "mkdir" → v.toList <:+: help_output.toList := by
  decide

set_option maxRecDepth 100000 in
/-- C10, defect in the code: the verb `mkdir` is dispatched to
its own branch of `kshell_execute`, which never prints the "command not found"
text, while `help` without argument prints the fixed listing, and neither a
line of that listing nor the listing as a whole contains `mkdir`. -/
theorem help_omits_mkdir :
    (∀ (env : Env) (args : List String) (w : World),
      kshell_execute env ("mkdir" :: args) w =
        (some 0, execute_mkdir env ("mkdir" :: args) w)) ∧
    (∀ (env : Env) (args : List String) (w : World),
      Event.printf (not_found_text "mkdir") ∉
        (execute_mkdir env ("mkdir" :: args) w).trace.drop w.trace.length) ∧
    (∀ (env : Env) (w : World),
      kshell_execute env ["help"] w = (some 0, w.prints help_listing)) ∧
    (∀ t ∈ help_listing, ¬ ("mkdir".toList <:+: t.toList)) ∧
    ¬ ("mkdir".toList <:+: help_output.toList) := by
  refine ⟨?_, ?_, ?_, by decide, by decide⟩
  · intro env args w
    have hlen : ¬ ((("mkdir" :: args).length : Nat) : Int) < 1 := by
      simp only [List.length_cons, Nat.cast_add, Nat.cast_one]
      omega
    unfold kshell_execute
    rw [if_neg hlen]
    simp
  · intro env args w
    have hne : ∀ a b : String, Event.printf (not_found_text "mkdir") ≠
        Event.printf ("mkdir: couldn't " ++ a ++ b ++ "\n") := by
      intro a b h
      have h2 := congrArg String.data (Event.printf.inj h)
      simp [not_found_text, String.data_append] at h2
    have hcreate := hne "create " (("mkdir" :: args).getD 2 "")
    have hopen := hne "open " (("mkdir" :: args).getD 1 "")
    have huse : Event.printf (not_found_text "mkdir") ≠
        Event.printf "use: mkdir <parent-dir> <dirname>\n" := by decide
    unfold execute_mkdir
    repeat' split
    all_goals simp only [World.printf, World.emit, List.drop_left, List.append_assoc,
      List.drop_left', List.mem_cons, List.mem_singleton, List.not_mem_nil, List.cons_append,
      List.nil_append, or_false, not_or]
    all_goals
      first
        | exact ⟨by simp, by simp, hcreate, by simp⟩
        | exact ⟨by simp, by simp, by simp, by simp⟩
        | exact ⟨by simp, hopen⟩
        | exact huse
  · intro env w
    simp [kshell_execute, execute_help]

/-- C11: for every list of names without NUL byte (a name may be empty), on
a buffer that holds each name followed by one NUL byte (and anything after
them) with `length` the number of bytes so written, `kshell_printdir` returns
(the result 0) after printing exactly those names, one per line, in the order
of the buffer, each once; with `length` 0 it prints nothing, whatever the
buffer holds; and `kshell_listdir` shows the names this way when the listing of
the directory is such a buffer. -/
theorem kshell_printdir_names (names : List (List Char)) (junk : List Char) (w : World) :
    ((∀ name ∈ names, NUL ∉ name) →
      kshell_printdir (dir_buffer names ++ junk) (dir_buffer names).length w =
        (0, { w with trace := w.trace ++ dir_lines names })) ∧
    kshell_printdir junk 0 w = (0, w) ∧
    ((∀ name ∈ names, NUL ∉ name) →
      ∀ path : String,
        kshell_listdir (env_listing names junk) path w =
          (0, { w with trace := w.trace
            ++ [.fs_resolve path, .kmalloc 1024, .fs_dirent_list 5 1024]
            ++ dir_lines names ++ [.kfree] })) := by
  have hzero : ∀ (d : List Char) (w : World), kshell_printdir d 0 w = (0, w) := by
    intro d w
    rw [kshell_printdir]
    simp
  have hmain : ∀ (names : List (List Char)) (w : World), (∀ name ∈ names, NUL ∉ name) →
      kshell_printdir (dir_buffer names ++ junk) (dir_buffer names).length w =
        (0, { w with trace := w.trace ++ dir_lines names }) := by
    intro names
    induction names with
    | nil =>
      intro w _
      simp [dir_buffer, dir_lines, hzero]
    | cons name names ih =>
      intro w h
      have hn : NUL ∉ name := h name (List.mem_cons_self _ _)
      have hrest : ∀ x ∈ names, NUL ∉ x := fun x hx => h x (List.mem_cons_of_mem _ hx)
      have hbuf : dir_buffer (name :: names) ++ junk =
          name ++ NUL :: (dir_buffer names ++ junk) := by
        simp [dir_buffer]
      have hstr : c_string (dir_buffer (name :: names) ++ junk) = name := by
        rw [hbuf]
        exact c_string_append_NUL name _ hn
      have hdrop : (dir_buffer (name :: names) ++ junk).drop (name.length + 1) =
          dir_buffer names ++ junk := by
        rw [hbuf]
        have h1 : name ++ NUL :: (dir_buffer names ++ junk) =
            (name ++ [NUL]) ++ (dir_buffer names ++ junk) := by simp
        rw [h1]
        exact List.drop_left' (by simp)
      have hlen : (((dir_buffer (name :: names)).length : Nat) : Int) =
          ((name.length : Nat) : Int) + 1 + (((dir_buffer names).length : Nat) : Int) := by
        simp [dir_buffer]
        omega
      rw [kshell_printdir, if_pos (by rw [hlen]; omega), hstr, hdrop]
      have harith : (((dir_buffer (name :: names)).length : Nat) : Int)
          - (((name.length : Nat) : Int) + 1) = (((dir_buffer names).length : Nat) : Int) := by
        rw [hlen]
        omega
      rw [harith, ih _ hrest]
      simp [World.printf, World.emit, dir_lines]
  refine ⟨hmain names w, hzero junk w, ?_⟩
  intro h path
  have hge : (((dir_buffer names).length : Nat) : Int) ≥ 0 := by omega
  simp only [kshell_listdir, env_listing, env_ok, if_true, hge]
  rw [hmain names _ h]
  simp [World.emit]

/-- C11, instance: the listing that holds `bin`, an empty name and `etc` is
printed as three lines, the second one empty, by `kshell_printdir` and by
`kshell_listdir`. -/
theorem kshell_printdir_names_witness :
    kshell_printdir (dir_buffer ["bin".toList, [], "etc".toList] ++ ['?', '?'])
        (dir_buffer ["bin".toList, [], "etc".toList]).length world0 =
      (0, { world0 with
              trace := world0.trace ++ (dir_lines ["bin".toList, [], "etc".toList]) }) ∧
    kshell_listdir (env_listing ["bin".toList, [], "etc".toList] ['?', '?']) "." world0 =
      (0, { world0 with
              trace := world0.trace
                ++ [.fs_resolve ".", .kmalloc 1024, .fs_dirent_list 5 1024]
                ++ (dir_lines ["bin".toList, [], "etc".toList]) ++ [.kfree] }) :=
  ⟨(kshell_printdir_names ["bin".toList, [], "etc".toList] ['?', '?'] world0).1 (by decide),
    (kshell_printdir_names ["bin".toList, [], "etc".toList] ['?', '?'] world0).2.2
      (by decide) "."⟩

/-- The branch `contents` stores the terminator at the index `sys_object_read`
returned, in the buffer of 4096 bytes, whenever the file was opened, the
buffer allocated and the count positive. -/
theorem execute_contents_store (env : Env) (argv : List String) (w : World)
    (harg : (argv.length : Int) > 1)
    (hfd : ¬ env.sys_open_file KNO_STDDIR (argv.getD 1 "") < 0)
    (hmem : env.kmalloc 4096 = true)
    (hread : (env.sys_object_read (env.sys_open_file KNO_STDDIR (argv.getD 1 "")) 4096).1 > 0) :
    Event.store 4096
        (env.sys_object_read (env.sys_open_file KNO_STDDIR (argv.getD 1 "")) 4096).1 ∈
      (execute_contents env argv w).trace := by
  unfold execute_contents
  simp only [harg, hfd, hmem, hread, if_true, if_false, sys_object_close]
  split <;> simp [World.printf, World.emit]

/-- The function `GUI` stores the terminator at the index `sys_object_read`
returned, in the buffer of 4096 bytes, whenever the file was opened, the
buffer allocated and the count positive. -/
theorem GUI_store (env : Env) (w : World)
    (hfd : ¬ env.sys_open_file KNO_STDDIR "/core/gui/main.nex" < 0)
    (hmem : env.kmalloc 4096 = true)
    (hread : (env.sys_object_read (env.sys_open_file KNO_STDDIR "/core/gui/main.nex")
      4096).1 > 0) :
    Event.store 4096
        (env.sys_object_read (env.sys_open_file KNO_STDDIR "/core/gui/main.nex") 4096).1 ∈
      (GUI env w).2.trace := by
  unfold GUI
  simp only [hfd, hmem, hread, if_true, if_false, sys_object_close]
  split <;> simp [World.printf, World.emit]

/-- C12, defect in the code: when `sys_object_read` returns 4096 for the
request of capacity 4096 (a file of at least 4096 bytes), the command
`contents` and the function `GUI` both store the terminator at index 4096 of
the buffer of 4096 bytes, one past its last byte: the index is not below the
size of the buffer. -/
theorem contents_terminator_past_buffer :
    (env_full_read.sys_object_read 5 4096).1 = 4096 ∧
    Event.store 4096 4096 ∈
      (kshell_execute env_full_read ["contents", "big.txt"] world0).2.trace ∧
    Event.store 4096 4096 ∈ (GUI env_full_read world0).2.trace ∧
    ¬ ((4096 : Int) < ((4096 : Nat) : Int)) := by
  refine ⟨rfl, ?_, ?_, by decide⟩
  · have hdispatch : kshell_execute env_full_read ["contents", "big.txt"] world0 =
        (some 0, execute_contents env_full_read ["contents", "big.txt"] world0) := by
      simp [kshell_execute]
    rw [hdispatch]
    exact execute_contents_store env_full_read ["contents", "big.txt"] world0
      (by decide) (by decide) rfl (by decide)
  · exact GUI_store env_full_read world0 (by decide) rfl (by decide)

/-- C6, counterexample: the line of 100 words `a` is a completed line (the
keystrokes and a carriage return fit the line buffer) with 100 maximal runs;
on it the tokenizing loop stores the null pointer that follows the last token
at index 100, outside `argv`, so the turn of the shell loop does not come to
a call of `kshell_execute` on the 100 runs: its outcome is `argv_overflow`. -/
theorem kshell_launch_turn_hundred_tokens :
    maximal_runs (repeated_word 100) = List.replicate 100 ['a'] ∧
    ¬ (∀ store ∈ (kshell_tokenize (repeated_word 100)).2, store.1 < ARGV_CAPACITY) ∧
    kshell_launch_turn env_ok (List.replicate 1024 NUL)
        { world0 with input := repeated_word 100 ++ [ASCII_CR] } = .argv_overflow ∧
    (∀ w1 : World, kshell_launch_turn env_ok (List.replicate 1024 NUL)
        { world0 with input := repeated_word 100 ++ [ASCII_CR] } ≠
      .completed
        { world := (kshell_execute env_ok
            ((maximal_runs (repeated_word 100)).map String.mk) w1).2,
          executed := some ((maximal_runs (repeated_word 100)).map String.mk) }) := by
  have hprint : ∀ n, ∀ c ∈ (repeated_word 100).take n, printable c = true :=
    fun n c hc => repeated_word_printable 100 c (List.mem_of_mem_take hc)
  have hacc : ∀ n, accumulated_from [] ((repeated_word 100).take n) =
      (repeated_word 100).take n := by
    intro n
    rw [accumulated_from_printable _ [] (hprint n)]
    rfl
  have hfull : accumulated_from [] (repeated_word 100) = repeated_word 100 := by
    rw [accumulated_from_printable _ [] (repeated_word_printable 100)]
    rfl
  have hruns := maximal_runs_repeated_word 100
  have hturn : kshell_launch_turn env_ok (List.replicate 1024 NUL)
      { world0 with input := repeated_word 100 ++ [ASCII_CR] } = .argv_overflow :=
    kshell_launch_turn_overflow env_ok (List.replicate 1024 NUL) (repeated_word 100) []
      { world0 with input := repeated_word 100 ++ [ASCII_CR] }
      (by rw [List.length_replicate]; decide) rfl
      (fun hm => absurd (repeated_word_printable 100 _ hm) (by decide))
      (by
        intro n _
        rw [hacc n, LINE_CAPACITY_eq, List.length_take, repeated_word_length]
        omega)
      (by rw [hfull, hruns, List.length_replicate]; decide)
  refine ⟨hruns, ?_, hturn, ?_⟩
  · rw [kshell_tokenize_eq, argv_stores_in_bounds, hruns, List.length_replicate]
    decide
  · intro w1
    rw [hturn]
    exact fun h => TurnOutcome.noConfusion h

end NexShell
